import Mathlib

/-!
# Verification development for the OpenCL kernel-generator check node and its callers

Shallow embedding of
* `stan/math/opencl/kernel_generator/check_cl.hpp` (`check_cl_`),
* `stan/math/opencl/prim/cauchy_lcdf.hpp` (`cauchy_lcdf`),
* `stan/math/opencl/kernels/device_functions/log1p_exp.hpp` (`log1p_exp`),
* `stan/math/prim/fun/rep_matrix.hpp` (`rep_matrix`),
* `stan/math/prim/meta/is_vector.hpp` (`is_eigen_row_vector`, `is_eigen_col_vector`).
-/

namespace stan.math

/-! ## Exceptions -/

/-- The exceptions the embedded functions throw.  `invalid_argument` carries the
arguments `check_size_match` was called with, `domain_error` the formatted message
of `check_cl_::add_write_event`, `domain_error_value` the arguments of a failed
scalar check such as `check_nonnegative`. -/
inductive exception where
  | invalid_argument (function expr_i name_i : String) (i : Int)
      (expr_j name_j : String) (j : Int)
  | domain_error (what : String)
  | domain_error_value (function name : String) (y : Int)
  deriving DecidableEq, Repr

/-! ## Matrices and kernel expressions -/

/-- A matrix (device buffer or evaluated kernel expression): its shape and its
coefficient at `(row, col)`. -/
structure matrix_cl (α : Type) where
  rows : Nat
  cols : Nat
  coeff : Nat → Nat → α

/-- The column vector (an `N`-by-1 matrix) with the entries `xs`; `d` is read outside of
it. -/
def col_vector (xs : List α) (d : α) : matrix_cl α :=
  { rows := xs.length, cols := 1, coeff := fun i _ => xs.getD i d }

/-- Modelled from the spec: the unary operation nodes of the kernel generator are not
among the source files; per the spec they are "elementwise" functions: the value at
`(i, j)` is `f` of the operand at `(i, j)`, the shape is the operand's. -/
def elementwise (f : α → β) (m : matrix_cl α) : matrix_cl β :=
  { rows := m.rows, cols := m.cols, coeff := fun i j => f (m.coeff i j) }

/-- Modelled from the spec: the binary operation nodes of the kernel generator are not
among the source files; per the spec they are "elementwise arithmetic": the value at
`(i, j)` is `f` of the two operands at `(i, j)`. -/
def elementwise2 (f : α → β → γ) (a : matrix_cl α) (b : matrix_cl β) : matrix_cl γ :=
  { rows := a.rows, cols := a.cols, coeff := fun i j => f (a.coeff i j) (b.coeff i j) }

/-! ## The check node `check_cl_` -/

/-- The 3-int status buffer `buffer_`: `b0` is the indicator whether an exception
needs to be raised, `b1` and `b2` are the problematic indices. -/
structure status_buffer where
  b0 : Int
  b1 : Int
  b2 : Int
  deriving DecidableEq, Repr

/-- The members of `check_cl_<T>`: `buffer_` (3×1 ints), `value_` (1×1), the checked
argument `arg_` and the three strings kept for the error message. -/
structure check_cl_ (α : Type) where
  buffer_ : status_buffer
  value_ : α
  arg_ : matrix_cl α
  function_ : String
  err_variable_ : String
  must_be_ : String

/-- The constructor `check_cl_(function, err_variabhle, y, must_be)`: `buffer_(3, 1)`
is zeroed by `buffer_.zeros()`; `value_(1, 1)` is allocated but never written, its
content is whatever the allocation holds (`uninit`). -/
def check_cl (function err_variabhle : String) (y : matrix_cl α) (must_be : String)
    (uninit : α) : check_cl_ α :=
  { buffer_ := { b0 := 0, b1 := 0, b2 := 0 }
    value_ := uninit
    arg_ := y
    function_ := function
    err_variable_ := err_variabhle
    must_be_ := must_be }

/-- Member `check_cl_::rows()`: `arg_.rows()`. -/
def check_cl_.rows (c : check_cl_ α) : Nat := c.arg_.rows

/-- Member `check_cl_::cols()`: `arg_.cols()`. -/
def check_cl_.cols (c : check_cl_ α) : Nat := c.arg_.cols

/-- Modelled from the spec: `check_size_match` is not among the source files; per the
spec a mismatch "signals a size-mismatch error naming both the argument and expression
sides", and equal sizes pass. -/
def check_size_match (function expr_i name_i : String) (i : Int)
    (expr_j name_j : String) (j : Int) : Except exception Unit :=
  if i = j then pure ()
  else throw (exception.invalid_argument function expr_i name_i i expr_j name_j j)

/-- Member `check_cl_::check_assign_dimensions`. -/
def check_cl_.check_assign_dimensions (c : check_cl_ α) (rows cols : Int) :
    Except exception Unit := do
  check_size_match "check_cl_.check_assign_dimensions" "Rows of " "argument"
    (c.arg_.rows : Int) "rows of " "expression" rows
  check_size_match "check_cl_.check_assign_dimensions" "Columns of " "argument"
    (c.arg_.cols : Int) "columns of " "expression" cols

/-! ### The generated reduction code, run by the work-items of one launch

`get_kernel_parts_lhs` emits, for a node named `var`,
```
if(!var && atomic_xchg(var_buffer, 1) == 1){
var_buffer[1] = <row index>;
var_buffer[2] = <col index>;
var_value[0] = <arg var>;
}
```
Every work-item `(i, j)` of the launch runs this text with `var` the assigned boolean
at `(i, j)` and `<arg var>` the checked argument at `(i, j)`.  The exchange is one
atomic step; the three stores are plain stores, each a step of its own, so stores of
different work-items may interleave. -/

/-- OpenCL `atomic_xchg(p, val)` on the flag cell: returns the old content and the new
content of the cell. -/
def atomic_xchg (cell : Int) (val : Int) : Int × Int := (cell, val)

/-- State of one kernel launch: the two device buffers of the check node, the program
counter of every work-item (0 = before the `if`, 1, 2, 3 = before the first, second,
third store of the recording block, 4 = finished) and two ghost logs: the work-items
whose exchange returned 0 (they moved the flag from 0 to 1) and the work-items that
entered the recording block. -/
structure launch_state (α : Type) where
  buffer : status_buffer
  value : α
  pc : Nat → Nat → Nat
  claimed : List (Nat × Nat)
  recorders : List (Nat × Nat)

/-- Replace the program counter of work-item `(i, j)`. -/
def set_pc (pc : Nat → Nat → Nat) (i j v : Nat) : Nat → Nat → Nat :=
  fun a b => if a = i ∧ b = j then v else pc a b

/-- One step of work-item `(i, j)` in the generated reduction code. -/
def work_item_step (expr : matrix_cl Bool) (arg : matrix_cl α) (i j : Nat)
    (s : launch_state α) : launch_state α :=
  match s.pc i j with
  | 0 =>
    -- `!var && ...` : the exchange is not evaluated when `var` is true
    if expr.coeff i j then { s with pc := set_pc s.pc i j 4 }
    else
      let r := atomic_xchg s.buffer.b0 1
      let s1 := { s with buffer := { s.buffer with b0 := r.2 },
                         claimed := if r.1 = 0 then s.claimed ++ [(i, j)] else s.claimed }
      if r.1 = 1 then
        { s1 with pc := set_pc s.pc i j 1, recorders := s.recorders ++ [(i, j)] }
      else { s1 with pc := set_pc s.pc i j 4 }
  | 1 => { s with buffer := { s.buffer with b1 := (i : Int) }, pc := set_pc s.pc i j 2 }
  | 2 => { s with buffer := { s.buffer with b2 := (j : Int) }, pc := set_pc s.pc i j 3 }
  | 3 => { s with value := arg.coeff i j, pc := set_pc s.pc i j 4 }
  | _ => s

/-- The launch covers the index space `arg.rows × arg.cols`; an entry of the schedule
outside of it names no work-item and does nothing. -/
def sched_step (expr : matrix_cl Bool) (arg : matrix_cl α) (s : launch_state α)
    (w : Nat × Nat) : launch_state α :=
  if w.1 < arg.rows ∧ w.2 < arg.cols then work_item_step expr arg w.1 w.2 s else s

/-- State at launch for a check node. -/
def launch_init (c : check_cl_ α) : launch_state α :=
  { buffer := c.buffer_, value := c.value_, pc := fun _ _ => 0, claimed := [],
    recorders := [] }

/-- Run the work-items of one launch in the order `sched` (each entry lets the named
work-item take its next step). -/
def run_kernel (c : check_cl_ α) (expr : matrix_cl Bool) (sched : List (Nat × Nat)) :
    launch_state α :=
  sched.foldl (sched_step expr c.arg_) (launch_init c)

/-- Every work-item of the launch has finished: what `e.wait()` waits for. -/
def finished (rows cols : Nat) (s : launch_state α) : Prop :=
  ∀ i < rows, ∀ j < cols, s.pc i j = 4

instance (rows cols : Nat) (s : launch_state α) : Decidable (finished rows cols s) := by
  unfold finished; infer_instance

/-- The check node after the launch: the device buffers hold what the kernel left. -/
def after_kernel (c : check_cl_ α) (s : launch_state α) : check_cl_ α :=
  { c with buffer_ := s.buffer, value_ := s.value }

/-- Member `check_cl_::add_write_event` after `e.wait()`: read `buffer_`; if entry 0 is
non-zero read `value_`, stream the message and throw `std::domain_error`.  `fmt` is the
stream formatting of the value read back, integers are streamed in decimal. -/
def check_cl_.add_write_event (fmt : α → String) (c : check_cl_ α) :
    Except exception Unit :=
  let res := c.buffer_
  if res.b0 ≠ 0 then
    let value := c.value_
    let s := ""
    let s := s ++ c.function_
    let s := s ++ ": "
    let s := s ++ c.err_variable_
    let s := s ++ "["
    let s := s ++ toString res.b1
    let s := s ++ ", "
    let s := s ++ toString res.b2
    let s := s ++ "] = "
    let s := s ++ fmt value
    let s := s ++ ", but it must be "
    let s := s ++ c.must_be_
    let s := s ++ "!"
    throw (exception.domain_error s)
  else
    pure ()

/-- A schedule that lets every work-item of `ws` take four steps in a row. -/
def four_steps_each : List (Nat × Nat) → List (Nat × Nat)
  | [] => []
  | w :: ws => w :: w :: w :: w :: four_steps_each ws

/-- The work-items of a launch over `rows × cols`. -/
def work_items (rows cols : Nat) : List (Nat × Nat) :=
  List.product (List.range rows) (List.range cols)

/-- The schedule that runs the work-items of a launch one after the other, each to its
end. -/
def sequential_schedule (rows cols : Nat) : List (Nat × Nat) :=
  four_steps_each (work_items rows cols)

/-! ### Invariants of a launch -/

/-- Flag invariant of a launch: the flag is 0 or 1, and it is 1 exactly when a
work-item whose boolean is false has gone past the exchange. -/
def flag_inv (expr : matrix_cl Bool) (arg : matrix_cl α) (s : launch_state α) : Prop :=
  (s.buffer.b0 = 0 ∨ s.buffer.b0 = 1) ∧
  (s.buffer.b0 = 1 ↔
    ∃ i, i < arg.rows ∧ ∃ j, j < arg.cols ∧ expr.coeff i j = false ∧ s.pc i j ≠ 0)

/-- Log invariant of a launch: a work-item that moved the flag from 0 to 1 is finished,
a work-item that entered the recording block has gone past the exchange, and no
work-item did both. -/
def log_inv (s : launch_state α) : Prop :=
  (∀ w ∈ s.claimed, s.pc w.1 w.2 = 4) ∧
  (∀ w ∈ s.recorders, s.pc w.1 w.2 ≠ 0) ∧
  (∀ w ∈ s.claimed, w ∉ s.recorders)

/-- Invariant of a launch in which `(i0, j0)` is the only element whose boolean is
false: no work-item is inside the recording block, the index and value cells are
untouched, and once the flag is 1 work-item `(i0, j0)` is finished. -/
def single_inv (c : check_cl_ α) (i0 j0 : Nat) (s : launch_state α) : Prop :=
  s.buffer.b1 = c.buffer_.b1 ∧ s.buffer.b2 = c.buffer_.b2 ∧ s.value = c.value_ ∧
  (∀ a b, s.pc a b = 0 ∨ s.pc a b = 4) ∧ (s.buffer.b0 = 1 → s.pc i0 j0 = 4) ∧
  s.recorders = []

/-- Invariant of a launch in which every element is true: no work-item touches the
buffers of the check node. -/
def untouched_inv (c : check_cl_ α) (s : launch_state α) : Prop :=
  s.buffer = c.buffer_ ∧ s.value = c.value_ ∧ (∀ a b, s.pc a b = 0 ∨ s.pc a b = 4)

/-! ## `cauchy_lcdf` -/

/-- In `cauchy_lcdf`: `check_cl(function, "Random variable", y_val, "not NaN")`. -/
def check_y_not_nan (y_val : matrix_cl α) (uninit : α) : check_cl_ α :=
  check_cl "cauchy_lcdf(OpenCL)" "Random variable" y_val "not NaN" uninit

/-- In `cauchy_lcdf`: `!isnan(y_val)`. -/
def y_not_nan_expr (isnan : α → Bool) (y_val : matrix_cl α) : matrix_cl Bool :=
  elementwise (fun v => !isnan v) y_val

/-- The destinations declared in `cauchy_lcdf`: the three check nodes and the four
`matrix_cl<double>` buffers. -/
inductive destination where
  | check_y_not_nan
  | check_mu_finite
  | check_sigma_positive_finite
  | cdf_log_cl
  | mu_deriv_cl
  | y_deriv_cl
  | sigma_deriv_cl
  deriving DecidableEq, Repr

/-- The source expressions built in `cauchy_lcdf`; `calc_if cond e` is
`calc_if<cond>(e)`. -/
inductive source where
  | y_not_nan_expr
  | mu_finite_expr
  | sigma_positive_finite_expr
  | cdf_log_expr
  | rep_deriv
  | neg_rep_deriv
  | sigma_deriv
  | calc_if (cond : Bool) (e : source)
  deriving DecidableEq, Repr

/-- The argument list of `results(...)` in `cauchy_lcdf`. -/
def cauchy_lcdf_results : List destination :=
  [.check_y_not_nan, .check_mu_finite, .check_sigma_positive_finite,
   .cdf_log_cl, .mu_deriv_cl, .sigma_deriv_cl]

/-- The argument list of `expressions(...)` in `cauchy_lcdf`; the three flags are
`is_constant<T_y_cl>::value`, `is_constant<T_loc_cl>::value` and
`is_constant<T_scale_cl>::value`. -/
def cauchy_lcdf_expressions (y_constant mu_constant sigma_constant : Bool) : List source :=
  [.y_not_nan_expr, .mu_finite_expr, .sigma_positive_finite_expr,
   .cdf_log_expr,
   .calc_if (!y_constant) .rep_deriv,
   .calc_if (!mu_constant) .neg_rep_deriv,
   .calc_if (!sigma_constant) .sigma_deriv]

/-- Modelled from the spec: the assignment `results(...) = expressions(...)` is not among
the source files; per the spec it is "pairing N destinations with N sources
positionally". -/
def assign_pairs (results : List destination) (expressions : List source) :
    List (destination × source) :=
  results.zip expressions

/-- The source written to destination `d` by the fused assignment of `cauchy_lcdf`, if
any. -/
def assigned_source (y_constant mu_constant sigma_constant : Bool) (d : destination) :
    Option source :=
  (assign_pairs cauchy_lcdf_results
    (cauchy_lcdf_expressions y_constant mu_constant sigma_constant)).lookup d

/-- The buffers moved into the partials of the three edges of `ops_partials`:
`edge1_` (for `y`) gets `y_deriv_cl`, `edge2_` (for `mu`) gets `mu_deriv_cl`, `edge3_`
(for `sigma`) gets `sigma_deriv_cl`, each only when the operand is not constant. -/
def edge_partials (y_constant mu_constant sigma_constant : Bool) :
    List (Option destination) :=
  [if !y_constant then some .y_deriv_cl else none,
   if !mu_constant then some .mu_deriv_cl else none,
   if !sigma_constant then some .sigma_deriv_cl else none]

/-- Modelled from the spec: `colwise_sum` is not among the source files; it is a
"reduction" of the spec, summing every column of its operand (here into one row; any
split of a column into partial sums has the same total). -/
def colwise_sum {R : Type} [AddMonoid R] (m : matrix_cl R) : matrix_cl R :=
  { rows := 1, cols := m.cols,
    coeff := fun _ j => ((List.range m.rows).map (fun i => m.coeff i j)).sum }

/-- Modelled from the spec: `sum(from_matrix_cl(m))` is not among the source files; it is
the host-side sum of all entries of the matrix copied back from the device. -/
def sum_from_matrix_cl {R : Type} [AddMonoid R] (m : matrix_cl R) : R :=
  ((List.range m.cols).map
    (fun j => ((List.range m.rows).map (fun i => m.coeff i j)).sum)).sum

/-- Modelled from the spec: `max_size` is not among the source files; it is the largest
of the sizes of its arguments. -/
def max_size (x1 x2 x3 : List R) : Nat := max x1.length (max x2.length x3.length)

/-- Modelled from the spec: `check_consistent_sizes` is not among the source files; it
throws `std::invalid_argument` unless the (non-scalar) arguments all have the same
size. -/
def check_consistent_sizes (function : String) (name1 : String) (x1 : List R)
    (name2 : String) (x2 : List R) (name3 : String) (x3 : List R) :
    Except exception Unit := do
  check_size_match function "size of " name1 (x1.length : Int) "size of " name2
    (x2.length : Int)
  check_size_match function "size of " name1 (x1.length : Int) "size of " name3
    (x3.length : Int)

/-- The function `cauchy_lcdf(y, mu, sigma)` on values (the `double` instantiation, the
partials aside).  `check_cl` accepts non-scalar kernel expressions only, so the three
operands are vectors, given by their entries.  The tests `isnan`, `isfinite`, the
functions `atan`, `log`, the constant `pi()` and the stream formatting `fmt` are
parameters; `uninit` is the content of the freshly allocated value buffers and `sched`
the order in which the device runs the work-items of the one fused kernel. -/
def cauchy_lcdf {R : Type} [LinearOrderedField R] (isnan isfinite : R → Bool)
    (atan log : R → R) (pi : R) (fmt : R → String) (uninit : R)
    (sched : List (Nat × Nat)) (y mu sigma : List R) : Except exception R := do
  let function := "cauchy_lcdf(OpenCL)"
  check_consistent_sizes function "Random variable" y "Location parameter" mu
    "Scale parameter" sigma
  let N := max_size y mu sigma
  if N = 0 then
    return 0
  else
    -- `as_column_vector_or_scalar`, `value_of`
    let y_val := col_vector y 0
    let mu_val := col_vector mu 0
    let sigma_val := col_vector sigma 0
    let check_y_not_nan := check_cl function "Random variable" y_val "not NaN" uninit
    let y_not_nan_expr := elementwise (fun v => !isnan v) y_val
    let check_mu_finite := check_cl function "Location parameter" mu_val "finite" uninit
    let mu_finite_expr := elementwise isfinite mu_val
    let check_sigma_positive_finite :=
      check_cl function "Scale parameter" sigma_val "positive finite" uninit
    let sigma_positive_finite_expr :=
      elementwise (fun v => decide (0 < v) && isfinite v) sigma_val
    let sigma_inv := elementwise (fun v => 1 / v) sigma_val
    let z := elementwise2 (fun a b => a * b) (elementwise2 (fun a b => a - b) y_val mu_val)
      sigma_inv
    -- `elt_divide(atan(z), pi()) + 0.5`
    let Pn := elementwise (fun v => v + 1 / 2) (elementwise (fun v => v / pi)
      (elementwise atan z))
    let cdf_log_expr := colwise_sum (elementwise log Pn)
    -- `results(...) = expressions(...)`: the destinations that are check nodes run
    -- `check_assign_dimensions` before the launch and `add_write_event` after it;
    -- `cdf_log_cl` is the fourth destination, `cdf_log_expr` the fourth source
    check_y_not_nan.check_assign_dimensions y_not_nan_expr.rows y_not_nan_expr.cols
    check_mu_finite.check_assign_dimensions mu_finite_expr.rows mu_finite_expr.cols
    check_sigma_positive_finite.check_assign_dimensions sigma_positive_finite_expr.rows
      sigma_positive_finite_expr.cols
    (after_kernel check_y_not_nan
      (run_kernel check_y_not_nan y_not_nan_expr sched)).add_write_event fmt
    (after_kernel check_mu_finite
      (run_kernel check_mu_finite mu_finite_expr sched)).add_write_event fmt
    (after_kernel check_sigma_positive_finite
      (run_kernel check_sigma_positive_finite sigma_positive_finite_expr
        sched)).add_write_event fmt
    let cdf_log_cl := cdf_log_expr
    let cdf_log := sum_from_matrix_cl cdf_log_cl
    -- `ops_partials.build(cdf_log)`
    return cdf_log

/-- The Cauchy cumulative distribution function at `y` with location `mu` and scale
`sigma`: `1/2 + atan((y - mu) / sigma) / pi`. -/
def cauchy_cdf {R : Type} [Field R] (atan : R → R) (pi : R) (y mu sigma : R) : R :=
  1 / 2 + atan ((y - mu) / sigma) / pi

/-! ## The device function `log1p_exp` -/

/-- The device function `log1p_exp`:
`return (a > 0 ? a : 0) + log1p(exp(-fabs(a)));`.  The OpenCL built-ins `log1p`, `exp`
and `fabs` are parameters. -/
def log1p_exp {R : Type} [LinearOrderedField R] (log1p exp fabs : R → R) (a : R) : R :=
  (if a > 0 then a else 0) + log1p (exp (-fabs a))

/-! ## `rep_matrix` and the vector traits -/

/-- An Eigen matrix value (or the value of an Eigen expression): its run-time shape and
its coefficient at `(row, col)`. -/
structure eigen_matrix (α : Type) where
  rows : Nat
  cols : Nat
  coeff : Nat → Nat → α

/-- The compile-time shape of an Eigen type: `RowsAtCompileTime` and
`ColsAtCompileTime`, with `Eigen::Dynamic` being `-1`. -/
structure eigen_type where
  RowsAtCompileTime : Int
  ColsAtCompileTime : Int
  deriving DecidableEq, Repr

/-- Eigen's `Dynamic`. -/
def Dynamic : Int := -1

/-- Trait `internal::is_eigen_col_vector_impl` for an Eigen type:
`ColsAtCompileTime == 1`. -/
def is_eigen_col_vector (T : eigen_type) : Bool := T.ColsAtCompileTime == 1

/-- Trait `internal::is_eigen_row_vector_impl` for an Eigen type:
`RowsAtCompileTime == 1`. -/
def is_eigen_row_vector (T : eigen_type) : Bool := T.RowsAtCompileTime == 1

/-- Trait `is_eigen_vector`: `is_eigen_col_vector || is_eigen_row_vector`. -/
def is_eigen_vector (T : eigen_type) : Bool := is_eigen_col_vector T || is_eigen_row_vector T

/-- A value `x` inhabits the Eigen type `T`: every dimension fixed at compile time is
the run-time dimension. -/
def has_type (T : eigen_type) (x : eigen_matrix α) : Prop :=
  (T.RowsAtCompileTime ≠ Dynamic → (x.rows : Int) = T.RowsAtCompileTime) ∧
  (T.ColsAtCompileTime ≠ Dynamic → (x.cols : Int) = T.ColsAtCompileTime)

instance (T : eigen_type) (x : eigen_matrix α) : Decidable (has_type T x) := by
  unfold has_type; infer_instance

/-- Eigen `x.size()`: `rows() * cols()`. -/
def eigen_matrix.size (x : eigen_matrix α) : Nat := x.rows * x.cols

/-- Eigen `x[k]` (linear access, column-major): entry `k` of a vector. -/
def eigen_matrix.entry (x : eigen_matrix α) (k : Nat) : α := x.coeff (k % x.rows) (k / x.rows)

/-- Eigen `Ret::Constant(m, n, x)`: the `m`-by-`n` matrix all of whose coefficients are
`x`. -/
def Constant (m n : Nat) (x : α) : eigen_matrix α :=
  { rows := m, cols := n, coeff := fun _ _ => x }

/-- Eigen `x.replicate(rowFactor, colFactor)`: `x` tiled `rowFactor` times vertically and
`colFactor` times horizontally. -/
def eigen_matrix.replicate (x : eigen_matrix α) (rowFactor colFactor : Nat) :
    eigen_matrix α :=
  { rows := x.rows * rowFactor, cols := x.cols * colFactor,
    coeff := fun i j => x.coeff (i % x.rows) (j % x.cols) }

/-- Modelled from the spec: `check_nonnegative` is not among the source files; by its
name and use it throws (a `std::domain_error` naming the function and the variable) when
the value is negative and returns otherwise. -/
def check_nonnegative (function name : String) (y : Int) : Except exception Unit :=
  if y < 0 then throw (exception.domain_error_value function name y) else pure ()

/-- Impl of `rep_matrix` (template with explicit `Ret`) for a scalar `x`. -/
def rep_matrix_impl (x : α) (m n : Int) : Except exception (eigen_matrix α) := do
  check_nonnegative "rep_matrix" "rows" m
  check_nonnegative "rep_matrix" "cols" n
  return Constant m.toNat n.toNat x

/-- Default overload of `rep_matrix` for a scalar `x`: calls the impl with
`Ret = Eigen::Matrix<T, Dynamic, Dynamic>`. -/
def rep_matrix (x : α) (m n : Int) : Except exception (eigen_matrix α) :=
  rep_matrix_impl x m n

/-- Impl of `rep_matrix` (template with explicit `Ret`) for an Eigen vector `x` of type
`Vec`. -/
def rep_matrix_vec_impl (Vec : eigen_type) (x : eigen_matrix α) (n : Int) :
    Except exception (eigen_matrix α) :=
  if is_eigen_row_vector Vec then do
    check_nonnegative "rep_matrix" "rows" n
    return x.replicate n.toNat 1
  else do
    check_nonnegative "rep_matrix" "cols" n
    return x.replicate 1 n.toNat

/-- Default overload of `rep_matrix` for an Eigen vector `x`: calls the impl with
`Ret = Eigen::Matrix<value_type_t<Vec>, Dynamic, Dynamic>`. -/
def rep_matrix_vec (Vec : eigen_type) (x : eigen_matrix α) (n : Int) :
    Except exception (eigen_matrix α) :=
  rep_matrix_vec_impl Vec x n

/-! ## Inputs of the examples -/

/-- Stand-in for the `double` values of the examples: a finite value (integers suffice
here) or NaN. -/
inductive double_val where
  | finite (x : Int)
  | nan
  deriving DecidableEq, Repr

/-- The test `isnan` on the stand-in values. -/
def double_val.isnan : double_val → Bool
  | .nan => true
  | .finite _ => false

/-- Stream formatting of the stand-in values. -/
def fmt_double : double_val → String
  | .finite x => toString x
  | .nan => "nan"

/-- The vector `[1.0, NaN, 3.0]`. -/
def y_example : matrix_cl double_val :=
  col_vector [.finite 1, .nan, .finite 3] (.finite 0)

/-- The vector `[1.0, 2.0, 3.0]`. -/
def y_all_finite : matrix_cl double_val :=
  col_vector [.finite 1, .finite 2, .finite 3] (.finite 0)

/-- The vector `[NaN, NaN, NaN]`. -/
def y_all_nan : matrix_cl double_val :=
  col_vector [.nan, .nan, .nan] (.finite 0)

/-- The vector `[NaN, NaN, 3.0]`. -/
def y_two_nan : matrix_cl double_val :=
  col_vector [.nan, .nan, .finite 3] (.finite 0)

/-- The row-vector type `Eigen::Matrix<T, 1, Dynamic>`. -/
def RowVectorX : eigen_type := { RowsAtCompileTime := 1, ColsAtCompileTime := Dynamic }

/-- The column-vector type `Eigen::Matrix<T, Dynamic, 1>`. -/
def VectorX : eigen_type := { RowsAtCompileTime := Dynamic, ColsAtCompileTime := 1 }

/-- The fixed-size type `Eigen::Matrix<T, 1, 1>`. -/
def Matrix11 : eigen_type := { RowsAtCompileTime := 1, ColsAtCompileTime := 1 }

/-- The one-entry matrix holding `x`. -/
def one_entry (x : α) : eigen_matrix α := { rows := 1, cols := 1, coeff := fun _ _ => x }

/-- The row vector with the entries `xs` (`d` outside). -/
def row_of_list (xs : List α) (d : α) : eigen_matrix α :=
  { rows := 1, cols := xs.length, coeff := fun _ j => xs.getD j d }

/-- The column vector with the entries `xs` (`d` outside). -/
def col_of_list (xs : List α) (d : α) : eigen_matrix α :=
  { rows := xs.length, cols := 1, coeff := fun i _ => xs.getD i d }

/-! ## Code generation and argument binding of the check node -/

/-- Modelled from the spec: `kernel_parts` is not among the source files; per the spec it
holds "four string fragments — declaration/argument list, per-element body,
reduction/write-back code, extra kernel-scope setup".  A default-constructed value has
four empty fragments. -/
structure kernel_parts where
  args : String := ""
  body : String := ""
  reduction : String := ""
  initialization : String := ""
  deriving DecidableEq, Repr

/-- Modelled from the spec: `name_generator` is not among the source files; per the spec
it is a "counter producing unique per-kernel variable identifiers". -/
structure name_generator where
  i_ : Nat
  deriving DecidableEq, Repr

/-- Modelled from the spec: `name_generator::generate()` advances the counter and returns
the identifier made from its new value. -/
def name_generator.generate (g : name_generator) : String × name_generator :=
  ("var" ++ toString (g.i_ + 1), { i_ := g.i_ + 1 })

/-- What a graph-walk emission reads and writes: the set `generated` of (addresses of)
operations already generated, the name generator, and the mutable member `var_name_` of
every operation, by address. -/
structure emit_state where
  generated : Finset Nat
  name_gen : name_generator
  var_name_ : Nat → String

/-- Handles of device buffers bound as kernel arguments: `buffer_.buffer()` and
`value_.buffer()` of the check node at an address, and the buffers of other
operations. -/
inductive cl_buffer where
  | check_buffer_ (node : Nat)
  | check_value_ (node : Nat)
  | other (node : Nat) (k : Nat)
  deriving DecidableEq, Repr

/-- What `set_args` reads and writes: the set `generated` of operations that already set
their arguments, the calls `kernel.setArg(index, buffer)` made so far, in order, and
`arg_num`. -/
structure bind_state where
  generated : Finset Nat
  kernel : List (Int × cl_buffer)
  arg_num : Int
  deriving DecidableEq

/-- The call `kernel.setArg(index, buffer)`. -/
def setArg (kernel : List (Int × cl_buffer)) (index : Int) (buffer : cl_buffer) :
    List (Int × cl_buffer) :=
  kernel ++ [(index, buffer)]

/-- The checked argument `arg_` of a check node.  Its class `T` is not among the source
files: its address and its two graph-walk operations
`get_kernel_parts(generated, name_gen, row_index_name, col_index_name, view_handled)`
and `set_args(generated, kernel, arg_num)` are given. -/
structure operation_cl where
  node : Nat
  get_kernel_parts : emit_state → String → String → Bool → kernel_parts × emit_state
  set_args : bind_state → bind_state

/-- Member `check_cl_::get_kernel_parts_lhs` of the check node at address `node` (`this`)
with checked argument `arg_`; `type_str` is `type_str<value_type_t<T>>()`. -/
def check_cl_.get_kernel_parts_lhs (node : Nat) (arg_ : operation_cl) (type_str : String)
    (st : emit_state) (row_index_name col_index_name : String) :
    kernel_parts × emit_state :=
  let res : kernel_parts := {}
  if node ∉ st.generated then
    let g := st.name_gen.generate
    let st := { st with var_name_ := Function.update st.var_name_ node g.1, name_gen := g.2 }
    let st := { st with generated := insert node st.generated }
    let r := arg_.get_kernel_parts st row_index_name col_index_name false
    let res := r.1
    let st := r.2
    let var_name_ := st.var_name_ node
    let res := { res with args := res.args ++
      ("__global int* " ++ var_name_ ++ "_buffer, __global "
        ++ type_str ++ "* " ++ var_name_ ++ "_value, ") }
    let res := { res with body := res.body ++ ("bool " ++ var_name_) }
    let res := { res with reduction := res.reduction ++
      ("if(!" ++ var_name_ ++
        " && atomic_xchg(" ++ var_name_ ++ "_buffer, 1) == 1)\x7b\n"
        ++ var_name_ ++ "_buffer[1] = " ++ row_index_name ++ ";\n"
        ++ var_name_ ++ "_buffer[2] = " ++ col_index_name ++ ";\n"
        ++ var_name_ ++ "_value[0] = " ++ st.var_name_ arg_.node ++ ";\n"
        ++ "\x7d") }
    (res, st)
  else
    (res, st)

/-- Member `check_cl_::set_args` of the check node at address `node` (`this`) with
checked argument `arg_`. -/
def check_cl_.set_args (node : Nat) (arg_ : operation_cl) (st : bind_state) : bind_state :=
  if node ∉ st.generated then
    let st := { st with generated := insert node st.generated }
    let st := arg_.set_args st
    let st := { st with kernel := setArg st.kernel st.arg_num (.check_buffer_ node),
                        arg_num := st.arg_num + 1 }
    let st := { st with kernel := setArg st.kernel st.arg_num (.check_value_ node),
                        arg_num := st.arg_num + 1 }
    st
  else
    st

/-- An example of a checked argument: an operation at address `node` that, unless already
generated, takes a fresh name and declares one `double` buffer parameter, and that,
unless its arguments are already set, binds its one buffer. -/
def example_arg (node : Nat) : operation_cl :=
  { node := node
    get_kernel_parts := fun st _ _ _ =>
      if node ∉ st.generated then
        let g := st.name_gen.generate
        ({ args := "__global double* " ++ g.1 ++ ", ", body := "double " ++ g.1 ++ ";\n" },
         { generated := insert node st.generated, name_gen := g.2,
           var_name_ := Function.update st.var_name_ node g.1 })
      else ({}, st)
    set_args := fun st =>
      if node ∉ st.generated then
        { generated := insert node st.generated,
          kernel := setArg st.kernel st.arg_num (.other node 0),
          arg_num := st.arg_num + 1 }
      else st }

/-- The state at the start of a code-generation pass: nothing generated, the counter at
0, no name assigned. -/
def emit_init : emit_state :=
  { generated := ∅, name_gen := { i_ := 0 }, var_name_ := fun _ => "" }

/-- The state at the start of argument binding: nothing bound, `arg_num` 0. -/
def bind_init : bind_state := { generated := ∅, kernel := [], arg_num := 0 }

/-- The state in which `get_kernel_parts_lhs` visits the argument of a node not yet
generated: after `this->var_name_ = name_gen.generate(); generated.insert(this);`. -/
def emit_enter (node : Nat) (st : emit_state) : emit_state :=
  { generated := insert node st.generated, name_gen := st.name_gen.generate.2,
    var_name_ := Function.update st.var_name_ node st.name_gen.generate.1 }

/-- The state in which `set_args` visits the argument of a node whose arguments are not
yet set: after `generated.insert(this);`. -/
def bind_enter (node : Nat) (bs : bind_state) : bind_state :=
  { bs with generated := insert node bs.generated }

/-! ## Theorems -/

/-! ### Steps and invariants of a launch -/

/-- A property kept by every step holds after a whole left fold. -/
theorem foldl_invariant {σ β : Type} (f : σ → β → σ) (P : σ → Prop)
    (hstep : ∀ s w, P s → P (f s w)) :
    ∀ (l : List β) (s : σ), P s → P (l.foldl f s) := by
  intro l
  induction l with
  | nil => intro s hs; exact hs
  | cons w l ih => intro s hs; exact ih (f s w) (hstep s w hs)

/-- Reading a program counter after `set_pc`. -/
theorem set_pc_apply (pc : Nat → Nat → Nat) (i j v a b : Nat) :
    set_pc pc i j v a b = if a = i ∧ b = j then v else pc a b := rfl

/-- The program counter just set. -/
theorem set_pc_self (pc : Nat → Nat → Nat) (i j v : Nat) : set_pc pc i j v i j = v := by
  simp [set_pc]

/-- A work-item whose program counter differs from that of `(i, j)` is not `(i, j)`: its
program counter is not changed by `set_pc`. -/
theorem set_pc_of_ne (pc : Nat → Nat → Nat) (i j v a b : Nat) (h : pc a b ≠ pc i j) :
    set_pc pc i j v a b = pc a b := by
  rw [set_pc_apply]
  split
  next hab => obtain ⟨rfl, rfl⟩ := hab; exact absurd rfl h
  next => rfl

/-- Moving a started work-item to a non-zero program counter changes no answer to
"has this work-item started?". -/
theorem set_pc_ne_zero_iff (pc : Nat → Nat → Nat) (i j v a b : Nat) (hv : v ≠ 0)
    (hold : pc i j ≠ 0) : (pc a b ≠ 0 ↔ set_pc pc i j v a b ≠ 0) := by
  rw [set_pc_apply]
  split
  next hab => obtain ⟨rfl, rfl⟩ := hab; simp [hv, hold]
  next => rfl

/-- Case analysis of one work-item step. -/
theorem work_item_step_cases (expr : matrix_cl Bool) (arg : matrix_cl α) (i j : Nat)
    (s : launch_state α) (P : launch_state α → Prop)
    (hskip : s.pc i j = 0 → expr.coeff i j = true → P { s with pc := set_pc s.pc i j 4 })
    (hrec : s.pc i j = 0 → expr.coeff i j = false → s.buffer.b0 = 1 →
      P { s with buffer := { s.buffer with b0 := 1 }, pc := set_pc s.pc i j 1,
                 recorders := s.recorders ++ [(i, j)] })
    (hclaim : s.pc i j = 0 → expr.coeff i j = false → s.buffer.b0 = 0 →
      P { s with buffer := { s.buffer with b0 := 1 }, pc := set_pc s.pc i j 4,
                 claimed := s.claimed ++ [(i, j)] })
    (hother : s.pc i j = 0 → expr.coeff i j = false → s.buffer.b0 ≠ 1 →
      s.buffer.b0 ≠ 0 →
      P { s with buffer := { s.buffer with b0 := 1 }, pc := set_pc s.pc i j 4 })
    (hrow : s.pc i j = 1 →
      P { s with buffer := { s.buffer with b1 := (i : Int) }, pc := set_pc s.pc i j 2 })
    (hcol : s.pc i j = 2 →
      P { s with buffer := { s.buffer with b2 := (j : Int) }, pc := set_pc s.pc i j 3 })
    (hval : s.pc i j = 3 → P { s with value := arg.coeff i j, pc := set_pc s.pc i j 4 })
    (hdone : 4 ≤ s.pc i j → P s) :
    P (work_item_step expr arg i j s) := by
  unfold work_item_step
  split
  next hpc =>
    by_cases he : expr.coeff i j = true
    · simpa [he] using hskip hpc he
    · have hf : expr.coeff i j = false := by simpa using he
      by_cases h1 : s.buffer.b0 = 1
      · have := hrec hpc hf h1
        simpa [hf, atomic_xchg, h1] using this
      · by_cases h0 : s.buffer.b0 = 0
        · have := hclaim hpc hf h0
          simpa [hf, atomic_xchg, h0] using this
        · have := hother hpc hf h1 h0
          simpa [hf, atomic_xchg, h0, h1] using this
  next hpc => exact hrow hpc
  next hpc => exact hcol hpc
  next hpc => exact hval hpc
  next h0 h1 h2 h3 =>
    apply hdone
    by_contra hlt
    have : s.pc i j = 0 ∨ s.pc i j = 1 ∨ s.pc i j = 2 ∨ s.pc i j = 3 := by omega
    rcases this with h | h | h | h
    · exact h0 h
    · exact h1 h
    · exact h2 h
    · exact h3 h

/-- The existence of a started failing work-item only depends on which failing
work-items have started. -/
theorem exists_started_mono (expr : matrix_cl Bool) (arg : matrix_cl α)
    (pc pc2 : Nat → Nat → Nat)
    (h : ∀ a b, expr.coeff a b = false → (pc a b ≠ 0 ↔ pc2 a b ≠ 0)) :
    (∃ i, i < arg.rows ∧ ∃ j, j < arg.cols ∧ expr.coeff i j = false ∧ pc i j ≠ 0) ↔
    (∃ i, i < arg.rows ∧ ∃ j, j < arg.cols ∧ expr.coeff i j = false ∧ pc2 i j ≠ 0) := by
  constructor
  · rintro ⟨a, ha, b, hb, hf, hp⟩
    exact ⟨a, ha, b, hb, hf, (h a b hf).1 hp⟩
  · rintro ⟨a, ha, b, hb, hf, hp⟩
    exact ⟨a, ha, b, hb, hf, (h a b hf).2 hp⟩

/-- Every step keeps the flag invariant. -/
theorem flag_inv_step (expr : matrix_cl Bool) (arg : matrix_cl α) (s : launch_state α)
    (w : Nat × Nat) (h : flag_inv expr arg s) : flag_inv expr arg (sched_step expr arg s w) := by
  obtain ⟨i, j⟩ := w
  unfold sched_step
  split
  next hr =>
    obtain ⟨h01, hiff⟩ := h
    simp only at hr
    apply work_item_step_cases expr arg i j s (flag_inv expr arg)
    · intro _ he
      refine ⟨h01, hiff.trans (exists_started_mono expr arg _ _ ?_)⟩
      intro a b hf
      show s.pc a b ≠ 0 ↔ set_pc s.pc i j 4 a b ≠ 0
      rw [set_pc_apply]
      split
      next hab => obtain ⟨rfl, rfl⟩ := hab; simp [he] at hf
      next => rfl
    · intro _ hf _
      exact ⟨Or.inr rfl, iff_of_true rfl ⟨i, hr.1, j, hr.2, hf, by simp [set_pc_self]⟩⟩
    · intro _ hf _
      exact ⟨Or.inr rfl, iff_of_true rfl ⟨i, hr.1, j, hr.2, hf, by simp [set_pc_self]⟩⟩
    · intro _ hf _ _
      exact ⟨Or.inr rfl, iff_of_true rfl ⟨i, hr.1, j, hr.2, hf, by simp [set_pc_self]⟩⟩
    · intro hpc
      refine ⟨h01, hiff.trans (exists_started_mono expr arg _ _ ?_)⟩
      intro a b _
      exact set_pc_ne_zero_iff s.pc i j 2 a b (by decide) (by omega)
    · intro hpc
      refine ⟨h01, hiff.trans (exists_started_mono expr arg _ _ ?_)⟩
      intro a b _
      exact set_pc_ne_zero_iff s.pc i j 3 a b (by decide) (by omega)
    · intro hpc
      refine ⟨h01, hiff.trans (exists_started_mono expr arg _ _ ?_)⟩
      intro a b _
      exact set_pc_ne_zero_iff s.pc i j 4 a b (by decide) (by omega)
    · intro _
      exact ⟨h01, hiff⟩
  next => exact h

/-- The flag invariant holds after every schedule, for a node whose flag was 0 at launch. -/
theorem flag_inv_run (c : check_cl_ α) (expr : matrix_cl Bool) (sched : List (Nat × Nat))
    (h0 : c.buffer_.b0 = 0) : flag_inv expr c.arg_ (run_kernel c expr sched) := by
  unfold run_kernel
  apply foldl_invariant (sched_step expr c.arg_) (flag_inv expr c.arg_)
    (fun s w hs => flag_inv_step expr c.arg_ s w hs)
  refine ⟨Or.inl h0, ?_⟩
  simp [launch_init, h0]

/-- Every step keeps the log invariant. -/
theorem log_inv_step (expr : matrix_cl Bool) (arg : matrix_cl α) (s : launch_state α)
    (w : Nat × Nat) (h : log_inv s) : log_inv (sched_step expr arg s w) := by
  obtain ⟨i, j⟩ := w
  unfold sched_step
  split
  next hr =>
    obtain ⟨hc, hrc, hd⟩ := h
    apply work_item_step_cases expr arg i j s log_inv
    · intro hpc _
      refine ⟨fun w hw => ?_, fun w hw => ?_, hd⟩
      · show set_pc s.pc i j 4 w.1 w.2 = 4
        rw [set_pc_of_ne _ _ _ _ _ _ (by rw [hc w hw, hpc]; decide)]; exact hc w hw
      · show set_pc s.pc i j 4 w.1 w.2 ≠ 0
        rw [set_pc_of_ne _ _ _ _ _ _ (by rw [hpc]; exact hrc w hw)]; exact hrc w hw
    · intro hpc _ _
      refine ⟨fun w hw => ?_, fun w hw => ?_, fun w hw => ?_⟩
      · show set_pc s.pc i j 1 w.1 w.2 = 4
        rw [set_pc_of_ne _ _ _ _ _ _ (by rw [hc w hw, hpc]; decide)]; exact hc w hw
      · show set_pc s.pc i j 1 w.1 w.2 ≠ 0
        rw [set_pc_apply]
        split
        · decide
        · have hw2 : w ∈ s.recorders ++ [(i, j)] := hw
          rcases List.mem_append.1 hw2 with h1 | h1
          · exact hrc w h1
          · rename_i hne
            simp only [List.mem_singleton] at h1
            subst h1
            exact absurd ⟨rfl, rfl⟩ hne
      · show w ∉ s.recorders ++ [(i, j)]
        intro hmem
        rcases List.mem_append.1 hmem with h1 | h1
        · exact hd w hw h1
        · simp only [List.mem_singleton] at h1
          subst h1
          have := hc _ hw
          simp only at this
          omega
    · intro hpc _ _
      refine ⟨fun w hw => ?_, fun w hw => ?_, fun w hw => ?_⟩
      · show set_pc s.pc i j 4 w.1 w.2 = 4
        rw [set_pc_apply]
        split
        · rfl
        · have hw2 : w ∈ s.claimed ++ [(i, j)] := hw
          rcases List.mem_append.1 hw2 with h1 | h1
          · exact hc w h1
          · rename_i hne
            simp only [List.mem_singleton] at h1
            subst h1
            exact absurd ⟨rfl, rfl⟩ hne
      · show set_pc s.pc i j 4 w.1 w.2 ≠ 0
        rw [set_pc_of_ne _ _ _ _ _ _ (by rw [hpc]; exact hrc w hw)]; exact hrc w hw
      · show w ∉ s.recorders
        have hw2 : w ∈ s.claimed ++ [(i, j)] := hw
        rcases List.mem_append.1 hw2 with h1 | h1
        · exact hd w h1
        · simp only [List.mem_singleton] at h1
          subst h1
          intro hmem
          exact hrc _ hmem hpc
    · intro hpc _ _ _
      refine ⟨fun w hw => ?_, fun w hw => ?_, hd⟩
      · show set_pc s.pc i j 4 w.1 w.2 = 4
        rw [set_pc_of_ne _ _ _ _ _ _ (by rw [hc w hw, hpc]; decide)]; exact hc w hw
      · show set_pc s.pc i j 4 w.1 w.2 ≠ 0
        rw [set_pc_of_ne _ _ _ _ _ _ (by rw [hpc]; exact hrc w hw)]; exact hrc w hw
    · intro hpc
      refine ⟨fun w hw => ?_, fun w hw => ?_, hd⟩
      · show set_pc s.pc i j 2 w.1 w.2 = 4
        rw [set_pc_of_ne _ _ _ _ _ _ (by rw [hc w hw, hpc]; decide)]; exact hc w hw
      · show set_pc s.pc i j 2 w.1 w.2 ≠ 0
        exact (set_pc_ne_zero_iff s.pc i j 2 w.1 w.2 (by decide) (by omega)).1 (hrc w hw)
    · intro hpc
      refine ⟨fun w hw => ?_, fun w hw => ?_, hd⟩
      · show set_pc s.pc i j 3 w.1 w.2 = 4
        rw [set_pc_of_ne _ _ _ _ _ _ (by rw [hc w hw, hpc]; decide)]; exact hc w hw
      · show set_pc s.pc i j 3 w.1 w.2 ≠ 0
        exact (set_pc_ne_zero_iff s.pc i j 3 w.1 w.2 (by decide) (by omega)).1 (hrc w hw)
    · intro hpc
      refine ⟨fun w hw => ?_, fun w hw => ?_, hd⟩
      · show set_pc s.pc i j 4 w.1 w.2 = 4
        rw [set_pc_apply]
        split
        · rfl
        · exact hc w hw
      · show set_pc s.pc i j 4 w.1 w.2 ≠ 0
        exact (set_pc_ne_zero_iff s.pc i j 4 w.1 w.2 (by decide) (by omega)).1 (hrc w hw)
    · intro _
      exact ⟨hc, hrc, hd⟩
  next => exact h

/-- The log invariant holds after every schedule. -/
theorem log_inv_run (c : check_cl_ α) (expr : matrix_cl Bool) (sched : List (Nat × Nat)) :
    log_inv (run_kernel c expr sched) := by
  unfold run_kernel
  apply foldl_invariant (sched_step expr c.arg_) log_inv
    (fun s w hs => log_inv_step expr c.arg_ s w hs)
  refine ⟨?_, ?_, ?_⟩ <;> simp [launch_init]

/-- Every step keeps the single-failure invariant. -/
theorem single_inv_step (c : check_cl_ α) (expr : matrix_cl Bool) (i0 j0 : Nat)
    (hone : ∀ a, a < c.arg_.rows → ∀ b, b < c.arg_.cols → expr.coeff a b = false →
      a = i0 ∧ b = j0)
    (s : launch_state α) (w : Nat × Nat) (h : single_inv c i0 j0 s) :
    single_inv c i0 j0 (sched_step expr c.arg_ s w) := by
  obtain ⟨i, j⟩ := w
  unfold sched_step
  split
  next hr =>
    obtain ⟨h1, h2, hv, hpcs, hfl, hrec⟩ := h
    have hset : ∀ a b, set_pc s.pc i j 4 a b = 0 ∨ set_pc s.pc i j 4 a b = 4 := by
      intro a b
      rw [set_pc_apply]
      split
      · exact Or.inr rfl
      · exact hpcs a b
    apply work_item_step_cases expr c.arg_ i j s (single_inv c i0 j0)
    · intro hpc he
      refine ⟨h1, h2, hv, hset, fun hb => ?_, hrec⟩
      show set_pc s.pc i j 4 i0 j0 = 4
      rw [set_pc_apply]
      split
      · rfl
      · exact hfl hb
    · intro hpc hf hb
      obtain ⟨rfl, rfl⟩ := hone i hr.1 j hr.2 hf
      have := hfl hb
      omega
    · intro hpc hf _
      obtain ⟨rfl, rfl⟩ := hone i hr.1 j hr.2 hf
      exact ⟨h1, h2, hv, hset, fun _ => set_pc_self _ _ _ _, hrec⟩
    · intro hpc hf _ _
      obtain ⟨rfl, rfl⟩ := hone i hr.1 j hr.2 hf
      exact ⟨h1, h2, hv, hset, fun _ => set_pc_self _ _ _ _, hrec⟩
    · intro hpc; rcases hpcs i j with h | h <;> omega
    · intro hpc; rcases hpcs i j with h | h <;> omega
    · intro hpc; rcases hpcs i j with h | h <;> omega
    · intro _; exact ⟨h1, h2, hv, hpcs, hfl, hrec⟩
  next => exact h

/-- The single-failure invariant holds after every schedule, for a node whose flag was 0
at launch. -/
theorem single_inv_run (c : check_cl_ α) (expr : matrix_cl Bool) (i0 j0 : Nat)
    (hone : ∀ a, a < c.arg_.rows → ∀ b, b < c.arg_.cols → expr.coeff a b = false →
      a = i0 ∧ b = j0)
    (h0 : c.buffer_.b0 = 0) (sched : List (Nat × Nat)) :
    single_inv c i0 j0 (run_kernel c expr sched) := by
  unfold run_kernel
  apply foldl_invariant (sched_step expr c.arg_) (single_inv c i0 j0)
    (fun s w hs => single_inv_step c expr i0 j0 hone s w hs)
  refine ⟨rfl, rfl, rfl, fun _ _ => Or.inl rfl, ?_, rfl⟩
  intro hb
  simp [launch_init, h0] at hb

/-- Every step keeps the all-true invariant. -/
theorem untouched_inv_step (c : check_cl_ α) (expr : matrix_cl Bool)
    (hall : ∀ i, i < c.arg_.rows → ∀ j, j < c.arg_.cols → expr.coeff i j = true)
    (s : launch_state α) (w : Nat × Nat) (h : untouched_inv c s) :
    untouched_inv c (sched_step expr c.arg_ s w) := by
  obtain ⟨i, j⟩ := w
  unfold sched_step
  split
  next hr =>
    obtain ⟨hb, hv, hpcs⟩ := h
    have hset : ∀ a b, set_pc s.pc i j 4 a b = 0 ∨ set_pc s.pc i j 4 a b = 4 := by
      intro a b
      rw [set_pc_apply]
      split
      · exact Or.inr rfl
      · exact hpcs a b
    have htrue := hall i hr.1 j hr.2
    apply work_item_step_cases expr c.arg_ i j s (untouched_inv c)
    · intro _ _; exact ⟨hb, hv, hset⟩
    · intro _ hf; rw [htrue] at hf; cases hf
    · intro _ hf; rw [htrue] at hf; cases hf
    · intro _ hf; rw [htrue] at hf; cases hf
    · intro hpc; rcases hpcs i j with h | h <;> omega
    · intro hpc; rcases hpcs i j with h | h <;> omega
    · intro hpc; rcases hpcs i j with h | h <;> omega
    · intro _; exact ⟨hb, hv, hpcs⟩
  next => exact h

/-- No step takes a program counter beyond 4. -/
theorem pc_le_four_step (expr : matrix_cl Bool) (arg : matrix_cl α) (s : launch_state α)
    (w : Nat × Nat) (h : ∀ a b, s.pc a b ≤ 4) :
    ∀ a b, (sched_step expr arg s w).pc a b ≤ 4 := by
  obtain ⟨i, j⟩ := w
  unfold sched_step
  split
  next hr =>
    have hset : ∀ v, v ≤ 4 → ∀ a b, set_pc s.pc i j v a b ≤ 4 := by
      intro v hv a b
      rw [set_pc_apply]
      split
      · exact hv
      · exact h a b
    apply work_item_step_cases expr arg i j s (fun s' => ∀ a b, s'.pc a b ≤ 4)
    · intro _ _; exact hset 4 (by decide)
    · intro _ _ _; exact hset 1 (by decide)
    · intro _ _ _; exact hset 4 (by decide)
    · intro _ _ _ _; exact hset 4 (by decide)
    · intro _; exact hset 2 (by decide)
    · intro _; exact hset 3 (by decide)
    · intro _; exact hset 4 (by decide)
    · intro _; exact h
  next => exact h

/-- A step of work-item `(i, j)` advances its program counter, unless it is finished. -/
theorem pc_progress_step (expr : matrix_cl Bool) (arg : matrix_cl α) (s : launch_state α)
    (i j : Nat) (hi : i < arg.rows) (hj : j < arg.cols) :
    min 4 (s.pc i j + 1) ≤ (sched_step expr arg s (i, j)).pc i j := by
  unfold sched_step
  rw [if_pos ⟨hi, hj⟩]
  apply work_item_step_cases expr arg i j s (fun s' => min 4 (s.pc i j + 1) ≤ s'.pc i j)
  · intro h _; show _ ≤ set_pc s.pc i j 4 i j; rw [set_pc_self]; omega
  · intro h _ _; show _ ≤ set_pc s.pc i j 1 i j; rw [set_pc_self]; omega
  · intro h _ _; show _ ≤ set_pc s.pc i j 4 i j; rw [set_pc_self]; omega
  · intro h _ _ _; show _ ≤ set_pc s.pc i j 4 i j; rw [set_pc_self]; omega
  · intro h; show _ ≤ set_pc s.pc i j 2 i j; rw [set_pc_self]; omega
  · intro h; show _ ≤ set_pc s.pc i j 3 i j; rw [set_pc_self]; omega
  · intro h; show _ ≤ set_pc s.pc i j 4 i j; rw [set_pc_self]; omega
  · intro h; omega

/-- A finished work-item stays finished. -/
theorem pc_mono_step (expr : matrix_cl Bool) (arg : matrix_cl α) (s : launch_state α)
    (w : Nat × Nat) (a b : Nat) (h : s.pc a b = 4) : (sched_step expr arg s w).pc a b = 4 := by
  obtain ⟨i, j⟩ := w
  unfold sched_step
  split
  next hr =>
    have hset : ∀ v, s.pc i j ≠ 4 → set_pc s.pc i j v a b = 4 := by
      intro v hne
      rw [set_pc_of_ne _ _ _ _ _ _ (by rw [h]; exact fun e => hne e.symm)]
      exact h
    apply work_item_step_cases expr arg i j s (fun s' => s'.pc a b = 4)
    · intro hpc _; exact hset 4 (by omega)
    · intro hpc _ _; exact hset 1 (by omega)
    · intro hpc _ _; exact hset 4 (by omega)
    · intro hpc _ _ _; exact hset 4 (by omega)
    · intro hpc; exact hset 2 (by omega)
    · intro hpc; exact hset 3 (by omega)
    · intro hpc; exact hset 4 (by omega)
    · intro _; exact h
  next => exact h

/-- Running the work-items of `ws` to their end, one after the other, leaves every one
of them finished (and keeps finished what was finished). -/
theorem four_steps_each_finishes (expr : matrix_cl Bool) (arg : matrix_cl α) :
    ∀ (ws : List (Nat × Nat)) (s : launch_state α), (∀ a b, s.pc a b ≤ 4) →
      (∀ w ∈ ws, w.1 < arg.rows ∧ w.2 < arg.cols) →
      (∀ a b, s.pc a b = 4 ∨ (a, b) ∈ ws →
        ((four_steps_each ws).foldl (sched_step expr arg) s).pc a b = 4) := by
  intro ws
  induction ws with
  | nil =>
    intro s _ _ a b h
    rcases h with h | h
    · exact h
    · cases h
  | cons w ws ih =>
    intro s hle hin a b h
    obtain ⟨i, j⟩ := w
    have hr := hin (i, j) (List.mem_cons_self _ _)
    simp only [four_steps_each, List.foldl_cons]
    have l1 := pc_le_four_step expr arg s (i, j) hle
    have l2 := pc_le_four_step expr arg _ (i, j) l1
    have l3 := pc_le_four_step expr arg _ (i, j) l2
    have l4 := pc_le_four_step expr arg _ (i, j) l3
    have p1 := pc_progress_step expr arg s i j hr.1 hr.2
    have p2 := pc_progress_step expr arg (sched_step expr arg s (i, j)) i j hr.1 hr.2
    have p3 := pc_progress_step expr arg
      (sched_step expr arg (sched_step expr arg s (i, j)) (i, j)) i j hr.1 hr.2
    have p4 := pc_progress_step expr arg
      (sched_step expr arg (sched_step expr arg (sched_step expr arg s (i, j)) (i, j))
        (i, j)) i j hr.1 hr.2
    have hdone : (sched_step expr arg (sched_step expr arg (sched_step expr arg
        (sched_step expr arg s (i, j)) (i, j)) (i, j)) (i, j)).pc i j = 4 := by
      have := l4 i j
      omega
    apply ih _ l4 (fun w hw => hin w (List.mem_cons_of_mem _ hw))
    rcases h with h | h
    · left
      exact pc_mono_step _ _ _ _ _ _ (pc_mono_step _ _ _ _ _ _
        (pc_mono_step _ _ _ _ _ _ (pc_mono_step _ _ _ _ _ _ h)))
    · rcases List.mem_cons.1 h with h | h
      · left
        cases h
        exact hdone
      · right
        exact h

/-- Every launch can finish: the schedule that runs the work-items one after the other,
each to its end, leaves every work-item finished. -/
theorem sequential_schedule_finished (c : check_cl_ α) (expr : matrix_cl Bool) :
    finished c.arg_.rows c.arg_.cols
      (run_kernel c expr (sequential_schedule c.arg_.rows c.arg_.cols)) := by
  intro i hi j hj
  unfold run_kernel sequential_schedule
  apply four_steps_each_finishes expr c.arg_ (work_items c.arg_.rows c.arg_.cols)
    (launch_init c) (fun _ _ => by show (0 : Nat) ≤ 4; decide)
  · intro w hw
    obtain ⟨a, b⟩ := w
    have := List.pair_mem_product.1 hw
    exact ⟨List.mem_range.1 this.1, List.mem_range.1 this.2⟩
  · right
    exact List.pair_mem_product.2 ⟨List.mem_range.2 hi, List.mem_range.2 hj⟩

/-- Once the launch has finished, the flag is 0 or 1, and it is 1 exactly when some
element of the assigned expression is false. -/
theorem finished_flag (c : check_cl_ α) (expr : matrix_cl Bool) (sched : List (Nat × Nat))
    (h0 : c.buffer_.b0 = 0)
    (hfin : finished c.arg_.rows c.arg_.cols (run_kernel c expr sched)) :
    ((run_kernel c expr sched).buffer.b0 = 0 ∨ (run_kernel c expr sched).buffer.b0 = 1) ∧
    ((run_kernel c expr sched).buffer.b0 = 1 ↔
      ∃ i, i < c.arg_.rows ∧ ∃ j, j < c.arg_.cols ∧ expr.coeff i j = false) := by
  obtain ⟨h01, hiff⟩ := flag_inv_run c expr sched h0
  refine ⟨h01, hiff.trans ?_⟩
  constructor
  · rintro ⟨a, ha, b, hb, hf, _⟩
    exact ⟨a, ha, b, hb, hf⟩
  · rintro ⟨a, ha, b, hb, hf⟩
    exact ⟨a, ha, b, hb, hf, by rw [hfin a ha b hb]; decide⟩

/-- Final state of a launch in which exactly one element, `(i0, j0)`, is false: the flag
is 1, the two index cells and the value cell hold what they held before the launch, and
no work-item entered the recording block. -/
theorem single_failure_final (c : check_cl_ α) (expr : matrix_cl Bool) (i0 j0 : Nat)
    (h0 : c.buffer_.b0 = 0) (hi : i0 < c.arg_.rows) (hj : j0 < c.arg_.cols)
    (hfalse : expr.coeff i0 j0 = false)
    (hone : ∀ a, a < c.arg_.rows → ∀ b, b < c.arg_.cols → expr.coeff a b = false →
      a = i0 ∧ b = j0)
    (sched : List (Nat × Nat))
    (hfin : finished c.arg_.rows c.arg_.cols (run_kernel c expr sched)) :
    (run_kernel c expr sched).buffer = { b0 := 1, b1 := c.buffer_.b1, b2 := c.buffer_.b2 } ∧
    (run_kernel c expr sched).value = c.value_ ∧
    (run_kernel c expr sched).recorders = [] := by
  obtain ⟨h1, h2, hv, _, _, hrec⟩ := single_inv_run c expr i0 j0 hone h0 sched
  have hflag := ((finished_flag c expr sched h0 hfin).2).2 ⟨i0, hi, j0, hj, hfalse⟩
  refine ⟨?_, hv, hrec⟩
  cases hb : (run_kernel c expr sched).buffer with
  | mk b0 b1 b2 =>
    rw [hb] at h1 h2 hflag
    simp only at h1 h2 hflag
    rw [h1, h2, hflag]

/-! ### `add_write_event` and `check_assign_dimensions` -/

/-- With a non-zero flag `add_write_event` throws the streamed message. -/
theorem add_write_event_of_flag (fmt : α → String) (c : check_cl_ α) (h : c.buffer_.b0 ≠ 0) :
    c.add_write_event fmt = .error (.domain_error
      (c.function_ ++ ": " ++ c.err_variable_ ++ "[" ++ toString c.buffer_.b1 ++ ", "
        ++ toString c.buffer_.b2 ++ "] = " ++ fmt c.value_ ++ ", but it must be "
        ++ c.must_be_ ++ "!")) := by
  unfold check_cl_.add_write_event
  simp only [h, if_true, ne_eq, not_false_eq_true]
  simp [throw, throwThe, MonadExceptOf.throw]

/-- With a zero flag `add_write_event` returns. -/
theorem add_write_event_of_zero (fmt : α → String) (c : check_cl_ α) (h : c.buffer_.b0 = 0) :
    c.add_write_event fmt = .ok () := by
  unfold check_cl_.add_write_event
  simp [h, pure, Except.pure]

/-- When every element of the assigned expression is true the check passes, in whatever
order (and however far) the work-items ran. -/
theorem add_write_event_all_true (fmt : α → String) (c : check_cl_ α)
    (expr : matrix_cl Bool) (h0 : c.buffer_.b0 = 0)
    (hall : ∀ i, i < c.arg_.rows → ∀ j, j < c.arg_.cols → expr.coeff i j = true)
    (sched : List (Nat × Nat)) :
    (after_kernel c (run_kernel c expr sched)).add_write_event fmt = .ok () := by
  have hinv : untouched_inv c (run_kernel c expr sched) := by
    unfold run_kernel
    exact foldl_invariant (sched_step expr c.arg_) (untouched_inv c)
      (fun s w hs => untouched_inv_step c expr hall s w hs) sched (launch_init c)
      ⟨rfl, rfl, fun _ _ => Or.inl rfl⟩
  apply add_write_event_of_zero
  show (run_kernel c expr sched).buffer.b0 = 0
  rw [hinv.1, h0]

/-- The integer 0 is streamed as `0`. -/
theorem toString_zero_int : toString (0 : Int) = "0" := by decide

/-- The outcome of `check_assign_dimensions`, case by case. -/
theorem check_assign_dimensions_eq (c : check_cl_ α) (rows cols : Int) :
    c.check_assign_dimensions rows cols =
      if (c.arg_.rows : Int) ≠ rows then
        .error (.invalid_argument "check_cl_.check_assign_dimensions" "Rows of " "argument"
          (c.arg_.rows : Int) "rows of " "expression" rows)
      else if (c.arg_.cols : Int) ≠ cols then
        .error (.invalid_argument "check_cl_.check_assign_dimensions" "Columns of "
          "argument" (c.arg_.cols : Int) "columns of " "expression" cols)
      else .ok () := by
  unfold check_cl_.check_assign_dimensions check_size_match
  by_cases hr : (c.arg_.rows : Int) = rows
  · by_cases hc : (c.arg_.cols : Int) = cols
    · simp [hr, hc, bind, Except.bind, pure, Except.pure]
    · simp [hr, hc, bind, Except.bind, pure, Except.pure, throw, throwThe, MonadExceptOf.throw]
  · simp [hr, bind, Except.bind, throw, throwThe, MonadExceptOf.throw]

/-- The dimension check passes exactly when both dimensions agree. -/
theorem check_assign_dimensions_ok (c : check_cl_ α) (rows cols : Int) :
    c.check_assign_dimensions rows cols = .ok () ↔
      (c.arg_.rows : Int) = rows ∧ (c.arg_.cols : Int) = cols := by
  rw [check_assign_dimensions_eq]
  by_cases hr : (c.arg_.rows : Int) = rows
  · by_cases hc : (c.arg_.cols : Int) = cols
    · simp [hr, hc]
    · simp [hr, hc]
  · simp [hr]

/-! ### The check node: location and value reported, raising, message, recording -/

/-- C1 at the input of the claim: checking not-NaN over `[1.0, NaN, 3.0]`.  Whatever the
order of the work-items, once the launch has finished the status buffer holds
`[1, 0, 0]` and the value cell is still unwritten, so `add_write_event` reports
`[0, 0]`, an index whose element `1.0` passes the check, together with whatever the
value buffer held at allocation; index 1 and NaN are not reported. -/
theorem check_not_nan_example_reports_origin (uninit : double_val)
    (sched : List (Nat × Nat))
    (hfin : finished 3 1
      (run_kernel (check_y_not_nan y_example uninit)
        (y_not_nan_expr double_val.isnan y_example) sched)) :
    (run_kernel (check_y_not_nan y_example uninit)
      (y_not_nan_expr double_val.isnan y_example) sched).buffer
      = { b0 := 1, b1 := 0, b2 := 0 } ∧
    (run_kernel (check_y_not_nan y_example uninit)
      (y_not_nan_expr double_val.isnan y_example) sched).value
      = uninit ∧
    (after_kernel (check_y_not_nan y_example uninit)
      (run_kernel (check_y_not_nan y_example uninit)
        (y_not_nan_expr double_val.isnan y_example) sched)).add_write_event fmt_double =
      .error (.domain_error ("cauchy_lcdf(OpenCL): Random variable[0, 0] = "
        ++ fmt_double uninit ++ ", but it must be not NaN!")) ∧
    (y_not_nan_expr double_val.isnan y_example).coeff 0 0 = true ∧
    (y_not_nan_expr double_val.isnan y_example).coeff 1 0 = false ∧
    y_example.coeff 1 0 = double_val.nan := by
  have hone : ∀ a, a < (check_y_not_nan y_example uninit).arg_.rows →
      ∀ b, b < (check_y_not_nan y_example uninit).arg_.cols →
      (y_not_nan_expr double_val.isnan y_example).coeff a b = false → a = 1 ∧ b = 0 := by
    intro a ha b hb hf
    have ha3 : a < 3 := ha
    have hb1 : b < 1 := hb
    have hb0 : b = 0 := by omega
    subst hb0
    have : a = 0 ∨ a = 1 ∨ a = 2 := by omega
    rcases this with rfl | rfl | rfl
    · exact absurd hf (by decide)
    · exact ⟨rfl, rfl⟩
    · exact absurd hf (by decide)
  obtain ⟨hb, hv, _⟩ := single_failure_final (check_y_not_nan y_example uninit)
    (y_not_nan_expr double_val.isnan y_example) 1 0 rfl (by show 1 < 3; decide)
    (by show 0 < 1; decide) (by decide) hone sched hfin
  refine ⟨hb, hv, ?_, by decide, by decide, by decide⟩
  have e0 : (after_kernel (check_y_not_nan y_example uninit)
      (run_kernel (check_y_not_nan y_example uninit)
        (y_not_nan_expr double_val.isnan y_example) sched)).buffer_
      = { b0 := 1, b1 := 0, b2 := 0 } := hb
  have e3 : (after_kernel (check_y_not_nan y_example uninit)
      (run_kernel (check_y_not_nan y_example uninit)
        (y_not_nan_expr double_val.isnan y_example) sched)).value_ = uninit := hv
  rw [add_write_event_of_flag _ _ (by rw [e0]; decide), e0, e3]
  simp only [toString_zero_int, String.append_assoc]
  rfl

/-- C1, one order of the work-items: 0, 1, 2, with value buffer content `77.0` at
allocation. -/
theorem check_not_nan_example_in_order :
    finished 3 1 (run_kernel (check_y_not_nan y_example (.finite 77))
      (y_not_nan_expr double_val.isnan y_example) [(0, 0), (1, 0), (2, 0)]) ∧
    (after_kernel (check_y_not_nan y_example (.finite 77))
      (run_kernel (check_y_not_nan y_example (.finite 77))
        (y_not_nan_expr double_val.isnan y_example)
        [(0, 0), (1, 0), (2, 0)])).add_write_event fmt_double =
      .error (.domain_error
        "cauchy_lcdf(OpenCL): Random variable[0, 0] = 77, but it must be not NaN!") :=
  ⟨by decide,
   (check_not_nan_example_reports_origin (.finite 77) [(0, 0), (1, 0), (2, 0)]
      (by decide)).2.2.1⟩

/-- C2: a launch on a freshly constructed check node can finish, and once it has
finished (in whatever order its work-items ran), `add_write_event` throws
`std::domain_error` if and only if some element of the assigned boolean expression is
false; when every element is true it returns normally and `buffer[0]` is still 0. -/
theorem add_write_event_raises_iff_some_false (fmt : α → String)
    (function err_variable must_be : String) (y : matrix_cl α) (uninit : α)
    (expr : matrix_cl Bool)
    (hdim : (check_cl function err_variable y must_be uninit).check_assign_dimensions
      expr.rows expr.cols = .ok ()) :
    finished expr.rows expr.cols
      (run_kernel (check_cl function err_variable y must_be uninit) expr
        (sequential_schedule expr.rows expr.cols)) ∧
    ∀ sched : List (Nat × Nat),
      finished expr.rows expr.cols
        (run_kernel (check_cl function err_variable y must_be uninit) expr sched) →
      ((∃ what, (after_kernel (check_cl function err_variable y must_be uninit)
          (run_kernel (check_cl function err_variable y must_be uninit) expr
            sched)).add_write_event fmt = .error (.domain_error what)) ↔
        ∃ i, i < expr.rows ∧ ∃ j, j < expr.cols ∧ expr.coeff i j = false) ∧
      ((∀ i, i < expr.rows → ∀ j, j < expr.cols → expr.coeff i j = true) →
        (after_kernel (check_cl function err_variable y must_be uninit)
          (run_kernel (check_cl function err_variable y must_be uninit) expr
            sched)).add_write_event fmt = .ok () ∧
        (run_kernel (check_cl function err_variable y must_be uninit) expr
          sched).buffer.b0 = 0) := by
  obtain ⟨hr, hc⟩ := (check_assign_dimensions_ok _ _ _).1 hdim
  have hr2 : y.rows = expr.rows := by exact_mod_cast hr
  have hc2 : y.cols = expr.cols := by exact_mod_cast hc
  refine ⟨?_, ?_⟩
  · have := sequential_schedule_finished (check_cl function err_variable y must_be uninit)
      expr
    rw [← hr2, ← hc2]
    exact this
  intro sched hfin
  have hfin2 : finished (check_cl function err_variable y must_be uninit).arg_.rows
      (check_cl function err_variable y must_be uninit).arg_.cols
      (run_kernel (check_cl function err_variable y must_be uninit) expr sched) := by
    show finished y.rows y.cols _
    rw [hr2, hc2]; exact hfin
  obtain ⟨h01, hiff⟩ := finished_flag (check_cl function err_variable y must_be uninit)
    expr sched rfl hfin2
  have hiff2 : (run_kernel (check_cl function err_variable y must_be uninit) expr
      sched).buffer.b0 = 1 ↔
      ∃ i, i < expr.rows ∧ ∃ j, j < expr.cols ∧ expr.coeff i j = false := by
    rw [hiff]
    show (∃ i, i < y.rows ∧ ∃ j, j < y.cols ∧ expr.coeff i j = false) ↔ _
    rw [hr2, hc2]
  constructor
  · rw [← hiff2]
    constructor
    · rintro ⟨what, hw⟩
      rcases h01 with h | h
      · rw [add_write_event_of_zero fmt _ h] at hw
        cases hw
      · exact h
    · intro h
      have hne : (after_kernel (check_cl function err_variable y must_be uninit)
          (run_kernel (check_cl function err_variable y must_be uninit) expr
            sched)).buffer_.b0 ≠ 0 := by
        show (run_kernel (check_cl function err_variable y must_be uninit) expr
            sched).buffer.b0 ≠ 0
        rw [h]; decide
      exact ⟨_, add_write_event_of_flag fmt _ hne⟩
  · intro hall
    have hz : (run_kernel (check_cl function err_variable y must_be uninit) expr
        sched).buffer.b0 = 0 := by
      rcases h01 with h | h
      · exact h
      · obtain ⟨i, hi, j, hj, hf⟩ := hiff2.1 h
        rw [hall i hi j hj] at hf
        cases hf
    exact ⟨add_write_event_of_zero fmt _ hz, hz⟩

/-- C2 at concrete inputs: over `[1.0, NaN, 3.0]` the error is raised, over
`[1.0, 2.0, 3.0]` nothing is raised and the flag is still 0. -/
theorem add_write_event_raises_iff_examples :
    (∃ what, (after_kernel (check_cl "cauchy_lcdf(OpenCL)" "Random variable" y_example
        "not NaN" (.finite 77))
        (run_kernel (check_cl "cauchy_lcdf(OpenCL)" "Random variable" y_example "not NaN"
          (.finite 77)) (y_not_nan_expr double_val.isnan y_example)
          [(0, 0), (1, 0), (2, 0)])).add_write_event fmt_double
        = .error (.domain_error what)) ∧
    (after_kernel (check_cl "cauchy_lcdf(OpenCL)" "Random variable" y_all_finite
        "not NaN" (.finite 77))
        (run_kernel (check_cl "cauchy_lcdf(OpenCL)" "Random variable" y_all_finite
          "not NaN" (.finite 77)) (y_not_nan_expr double_val.isnan y_all_finite)
          [(2, 0), (0, 0), (1, 0)])).add_write_event fmt_double = .ok () ∧
    (run_kernel (check_cl "cauchy_lcdf(OpenCL)" "Random variable" y_all_finite
      "not NaN" (.finite 77)) (y_not_nan_expr double_val.isnan y_all_finite)
      [(2, 0), (0, 0), (1, 0)]).buffer.b0 = 0 :=
  ⟨((add_write_event_raises_iff_some_false fmt_double "cauchy_lcdf(OpenCL)"
      "Random variable" "not NaN" y_example (.finite 77)
      (y_not_nan_expr double_val.isnan y_example) (by rfl)).2
      [(0, 0), (1, 0), (2, 0)] (by decide)).1.2 ⟨1, by decide, 0, by decide, by decide⟩,
   (((add_write_event_raises_iff_some_false fmt_double "cauchy_lcdf(OpenCL)"
      "Random variable" "not NaN" y_all_finite (.finite 77)
      (y_not_nan_expr double_val.isnan y_all_finite) (by rfl)).2
      [(2, 0), (0, 0), (1, 0)] (by decide)).2 (by decide)).1,
   (((add_write_event_raises_iff_some_false fmt_double "cauchy_lcdf(OpenCL)"
      "Random variable" "not NaN" y_all_finite (.finite 77)
      (y_not_nan_expr double_val.isnan y_all_finite) (by rfl)).2
      [(2, 0), (0, 0), (1, 0)] (by decide)).2 (by decide)).2⟩

/-- C3: `check_assign_dimensions(rows, cols)` throws the size-mismatch error exactly when
`rows` differs from `arg_.rows()` or `cols` differs from `arg_.cols()` and returns
normally exactly when both are equal; the rows are compared first (a row mismatch is
reported whatever the columns are), and the error carries the names "argument" and
"expression" of the two sides. -/
theorem check_assign_dimensions_spec (c : check_cl_ α) (rows cols : Int) :
    (c.check_assign_dimensions rows cols = .ok () ↔
      (rows = (c.arg_.rows : Int) ∧ cols = (c.arg_.cols : Int))) ∧
    ((∃ e, c.check_assign_dimensions rows cols = .error e) ↔
      (rows ≠ (c.arg_.rows : Int) ∨ cols ≠ (c.arg_.cols : Int))) ∧
    (rows ≠ (c.arg_.rows : Int) →
      c.check_assign_dimensions rows cols =
        .error (.invalid_argument "check_cl_.check_assign_dimensions" "Rows of " "argument"
          (c.arg_.rows : Int) "rows of " "expression" rows)) ∧
    (rows = (c.arg_.rows : Int) → cols ≠ (c.arg_.cols : Int) →
      c.check_assign_dimensions rows cols =
        .error (.invalid_argument "check_cl_.check_assign_dimensions" "Columns of "
          "argument" (c.arg_.cols : Int) "columns of " "expression" cols)) := by
  refine ⟨?_, ?_, ?_, ?_⟩
  · rw [check_assign_dimensions_ok]
    constructor
    · rintro ⟨h1, h2⟩; exact ⟨h1.symm, h2.symm⟩
    · rintro ⟨h1, h2⟩; exact ⟨h1.symm, h2.symm⟩
  · rw [check_assign_dimensions_eq]
    by_cases hr : (c.arg_.rows : Int) = rows
    · by_cases hc : (c.arg_.cols : Int) = cols
      · simp [hr, hc]
      · have hc2 : ¬ cols = (c.arg_.cols : Int) := fun h => hc h.symm
        simp [hr, hc, hc2]
    · have hr2 : ¬ rows = (c.arg_.rows : Int) := fun h => hr h.symm
      simp [hr, hr2]
  · intro hr
    have hr2 : ¬ (c.arg_.rows : Int) = rows := fun h => hr h.symm
    rw [check_assign_dimensions_eq]
    simp [hr2]
  · intro hr hc
    have hc2 : ¬ (c.arg_.cols : Int) = cols := fun h => hc h.symm
    rw [check_assign_dimensions_eq]
    simp [hr, hc2]

/-- C3, concrete: a 3×1 argument against 2×5 fails on the rows, against 3×5 on the
columns, against 3×1 it passes. -/
theorem check_assign_dimensions_examples :
    (check_y_not_nan y_example (.finite 0)).check_assign_dimensions 2 5 =
      .error (.invalid_argument "check_cl_.check_assign_dimensions" "Rows of " "argument" 3
        "rows of " "expression" 2) ∧
    (check_y_not_nan y_example (.finite 0)).check_assign_dimensions 3 5 =
      .error (.invalid_argument "check_cl_.check_assign_dimensions" "Columns of " "argument"
        1 "columns of " "expression" 5) ∧
    (check_y_not_nan y_example (.finite 0)).check_assign_dimensions 3 1 = .ok () := by
  refine ⟨?_, ?_, ?_⟩ <;> rfl

/-- C9: whenever the status flag read back is non-zero, `add_write_event` throws a
`std::domain_error` whose message is exactly
`function + ": " + err_variable + "[" + row + ", " + col + "] = " + value +
", but it must be " + must_be + "!"` with `row`, `col` the status-buffer entries 1 and 2,
`value` entry 0 of the value buffer and the three strings those given to the
constructor. -/
theorem add_write_event_message (fmt : α → String)
    (function err_variable must_be : String) (y : matrix_cl α) (uninit : α)
    (s : launch_state α) (hflag : s.buffer.b0 ≠ 0) :
    (after_kernel (check_cl function err_variable y must_be uninit) s).add_write_event fmt
      = .error (.domain_error
        (function ++ ": " ++ err_variable ++ "[" ++ toString s.buffer.b1 ++ ", "
          ++ toString s.buffer.b2 ++ "] = " ++ fmt s.value ++ ", but it must be "
          ++ must_be ++ "!")) :=
  add_write_event_of_flag fmt
    (after_kernel (check_cl function err_variable y must_be uninit) s) hflag

/-- C9 at a concrete launch: over `[NaN, NaN, 3.0]` with the work-items run in the order
0, 1, 2 the second one records `[1, 0]` and NaN, and the message is built from them. -/
theorem add_write_event_message_example :
    (after_kernel (check_cl "cauchy_lcdf(OpenCL)" "Random variable" y_two_nan "not NaN"
        (.finite 77))
      (run_kernel (check_y_not_nan y_two_nan (.finite 77))
        (y_not_nan_expr double_val.isnan y_two_nan)
        [(0, 0), (1, 0), (1, 0), (1, 0), (1, 0), (2, 0)])).add_write_event fmt_double
      = .error (.domain_error
        "cauchy_lcdf(OpenCL): Random variable[1, 0] = nan, but it must be not NaN!") :=
  add_write_event_message fmt_double "cauchy_lcdf(OpenCL)" "Random variable" "not NaN"
    y_two_nan (.finite 77)
    (run_kernel (check_y_not_nan y_two_nan (.finite 77)) (y_not_nan_expr double_val.isnan y_two_nan)
      [(0, 0), (1, 0), (1, 0), (1, 0), (1, 0), (2, 0)]) (by decide)

/-- C10, what the code does instead: in every launch, in whatever order the work-items
run, a work-item whose exchange moved the flag from 0 to 1 never enters the recording
block. -/
theorem first_exchanger_never_records (c : check_cl_ α) (expr : matrix_cl Bool)
    (sched : List (Nat × Nat)) (w : Nat × Nat)
    (hw : w ∈ (run_kernel c expr sched).claimed) :
    w ∉ (run_kernel c expr sched).recorders :=
  (log_inv_run c expr sched).2.2 w hw

/-- C10 at concrete launches, work-items run in the order 0, 1, 2.  Three failing
elements: work-item 0 moves the flag from 0 to 1 and skips the recording block,
work-items 1 and 2 both execute it.  One failing element (`[1.0, NaN, 3.0]`): work-item 1
moves the flag and no work-item executes the recording block. -/
theorem three_failures_two_recorders :
    (run_kernel (check_y_not_nan y_all_nan (.finite 77))
      (y_not_nan_expr double_val.isnan y_all_nan)
      [(0, 0), (1, 0), (1, 0), (1, 0), (1, 0), (2, 0), (2, 0), (2, 0), (2, 0)]).claimed
      = [(0, 0)] ∧
    (run_kernel (check_y_not_nan y_all_nan (.finite 77))
      (y_not_nan_expr double_val.isnan y_all_nan)
      [(0, 0), (1, 0), (1, 0), (1, 0), (1, 0), (2, 0), (2, 0), (2, 0), (2, 0)]).recorders
      = [(1, 0), (2, 0)] ∧
    finished 3 1
      (run_kernel (check_y_not_nan y_all_nan (.finite 77))
        (y_not_nan_expr double_val.isnan y_all_nan)
        [(0, 0), (1, 0), (1, 0), (1, 0), (1, 0), (2, 0), (2, 0), (2, 0), (2, 0)]) ∧
    (0, 0) ∉ (run_kernel (check_y_not_nan y_all_nan (.finite 77))
      (y_not_nan_expr double_val.isnan y_all_nan)
      [(0, 0), (1, 0), (1, 0), (1, 0), (1, 0), (2, 0), (2, 0), (2, 0), (2, 0)]).recorders ∧
    (run_kernel (check_y_not_nan y_example (.finite 77))
      (y_not_nan_expr double_val.isnan y_example) [(0, 0), (1, 0), (2, 0)]).claimed
      = [(1, 0)] ∧
    (run_kernel (check_y_not_nan y_example (.finite 77))
      (y_not_nan_expr double_val.isnan y_example) [(0, 0), (1, 0), (2, 0)]).recorders
      = [] ∧
    finished 3 1
      (run_kernel (check_y_not_nan y_example (.finite 77))
        (y_not_nan_expr double_val.isnan y_example) [(0, 0), (1, 0), (2, 0)]) :=
  ⟨by decide, by decide, by decide,
   first_exchanger_never_records (check_y_not_nan y_all_nan (.finite 77))
     (y_not_nan_expr double_val.isnan y_all_nan)
     [(0, 0), (1, 0), (1, 0), (1, 0), (1, 0), (2, 0), (2, 0), (2, 0), (2, 0)] (0, 0)
     (by decide),
   by decide, by decide, by decide⟩

/-! ### `cauchy_lcdf` -/

/-- C4 on the code: `results(...)` lists six destinations and `expressions(...)` seven
sources; `y_deriv_cl` is not a destination at all, so positionally `mu_deriv_cl` is paired
with `rep_deriv` (the derivative for `y`), `sigma_deriv_cl` with `-rep_deriv` (the one for
`mu`), `sigma_deriv` has no destination, and the buffer moved into the partials of `y`
is never written. -/
theorem cauchy_lcdf_assignment_pairs (y_constant mu_constant sigma_constant : Bool) :
    cauchy_lcdf_results.length = 6 ∧
    (cauchy_lcdf_expressions y_constant mu_constant sigma_constant).length = 7 ∧
    destination.y_deriv_cl ∉ cauchy_lcdf_results ∧
    edge_partials false mu_constant sigma_constant =
      [some .y_deriv_cl, if !mu_constant then some .mu_deriv_cl else none,
       if !sigma_constant then some .sigma_deriv_cl else none] ∧
    assigned_source y_constant mu_constant sigma_constant .y_deriv_cl = none ∧
    assigned_source y_constant mu_constant sigma_constant .mu_deriv_cl =
      some (.calc_if (!y_constant) .rep_deriv) ∧
    assigned_source y_constant mu_constant sigma_constant .sigma_deriv_cl =
      some (.calc_if (!mu_constant) .neg_rep_deriv) ∧
    (∀ d, assigned_source y_constant mu_constant sigma_constant d ≠
      some (.calc_if (!sigma_constant) .sigma_deriv)) := by
  refine ⟨rfl, rfl, by decide, rfl, rfl, rfl, rfl, ?_⟩
  intro d
  cases d <;> cases y_constant <;> cases mu_constant <;> cases sigma_constant <;> decide

/-- Value of `cauchy_lcdf` when the sizes agree, the input is not empty and the three
checks pass: the sum of `log(atan((y - mu) * (1 / sigma)) / pi + 1/2)` over the
entries. -/
theorem cauchy_lcdf_ok {R : Type} [LinearOrderedField R] (isnan isfinite : R → Bool)
    (atan log : R → R) (pi : R) (fmt : R → String) (uninit : R)
    (sched : List (Nat × Nat)) (y mu sigma : List R)
    (hmu : y.length = mu.length) (hsigma : y.length = sigma.length)
    (hN : y.length ≠ 0)
    (hy : ∀ n, n < y.length → isnan (y.getD n 0) = false)
    (hm : ∀ n, n < mu.length → isfinite (mu.getD n 0) = true)
    (hs : ∀ n, n < sigma.length → 0 < sigma.getD n 0 ∧ isfinite (sigma.getD n 0) = true) :
    cauchy_lcdf isnan isfinite atan log pi fmt uninit sched y mu sigma
      = .ok (((List.range y.length).map (fun n =>
          log (atan ((y.getD n 0 - mu.getD n 0) * (1 / sigma.getD n 0)) / pi + 1 / 2))).sum) := by
  unfold cauchy_lcdf
  have hcs : check_consistent_sizes "cauchy_lcdf(OpenCL)" "Random variable" y
      "Location parameter" mu "Scale parameter" sigma = .ok () := by
    simp [check_consistent_sizes, check_size_match, ← hmu, ← hsigma,
      bind, Except.bind, pure, Except.pure]
  have hmax : max_size y mu sigma ≠ 0 := by
    unfold max_size
    have : y.length ≤ max y.length (max mu.length sigma.length) := le_max_left _ _
    omega
  have d1 : (check_cl "cauchy_lcdf(OpenCL)" "Random variable" (col_vector y 0) "not NaN"
      uninit).check_assign_dimensions
      ((elementwise (fun v => !isnan v) (col_vector y 0)).rows : Int)
      ((elementwise (fun v => !isnan v) (col_vector y 0)).cols : Int) = .ok () :=
    (check_assign_dimensions_ok _ _ _).2 ⟨rfl, rfl⟩
  have d2 : (check_cl "cauchy_lcdf(OpenCL)" "Location parameter" (col_vector mu 0) "finite"
      uninit).check_assign_dimensions
      ((elementwise isfinite (col_vector mu 0)).rows : Int)
      ((elementwise isfinite (col_vector mu 0)).cols : Int) = .ok () :=
    (check_assign_dimensions_ok _ _ _).2 ⟨rfl, rfl⟩
  have d3 : (check_cl "cauchy_lcdf(OpenCL)" "Scale parameter" (col_vector sigma 0)
      "positive finite" uninit).check_assign_dimensions
      ((elementwise (fun v => decide (0 < v) && isfinite v) (col_vector sigma 0)).rows : Int)
      ((elementwise (fun v => decide (0 < v) && isfinite v) (col_vector sigma 0)).cols : Int)
      = .ok () :=
    (check_assign_dimensions_ok _ _ _).2 ⟨rfl, rfl⟩
  have e1 := add_write_event_all_true fmt
    (check_cl "cauchy_lcdf(OpenCL)" "Random variable" (col_vector y 0) "not NaN" uninit)
    (elementwise (fun v => !isnan v) (col_vector y 0)) rfl
    (fun i hi j _ => by
      show (!isnan (y.getD i 0)) = true
      rw [hy i hi]; rfl) sched
  have e2 := add_write_event_all_true fmt
    (check_cl "cauchy_lcdf(OpenCL)" "Location parameter" (col_vector mu 0) "finite" uninit)
    (elementwise isfinite (col_vector mu 0)) rfl
    (fun i hi j _ => hm i hi) sched
  have e3 := add_write_event_all_true fmt
    (check_cl "cauchy_lcdf(OpenCL)" "Scale parameter" (col_vector sigma 0)
      "positive finite" uninit)
    (elementwise (fun v => decide (0 < v) && isfinite v) (col_vector sigma 0)) rfl
    (fun i hi j _ => by
      show (decide (0 < sigma.getD i 0) && isfinite (sigma.getD i 0)) = true
      rw [(hs i hi).2, decide_eq_true (hs i hi).1]; rfl) sched
  simp only [hcs, hmax, if_false, d1, d2, d3, e1, e2, e3]
  simp [bind, Except.bind, pure, Except.pure, sum_from_matrix_cl, colwise_sum, elementwise,
    elementwise2, col_vector]

/-- For empty operands `cauchy_lcdf` returns 0. -/
theorem cauchy_lcdf_empty {R : Type} [LinearOrderedField R] (isnan isfinite : R → Bool)
    (atan log : R → R) (pi : R) (fmt : R → String) (uninit : R)
    (sched : List (Nat × Nat)) :
    cauchy_lcdf isnan isfinite atan log pi fmt uninit sched [] [] [] = .ok 0 := by
  simp [cauchy_lcdf, check_consistent_sizes, check_size_match, max_size, bind, Except.bind,
    pure, Except.pure]

/-- A list sum over `List.range n` as a finite sum. -/
theorem list_range_map_sum (f : Nat → ℝ) (n : Nat) :
    ((List.range n).map f).sum = ∑ i ∈ Finset.range n, f i := by
  induction n with
  | zero => simp
  | succ k ih =>
    rw [List.range_succ, List.map_append, List.sum_append, ih, Finset.sum_range_succ]
    simp

/-- The Cauchy cumulative distribution function is positive. -/
theorem cauchy_cdf_pos (y mu sigma : ℝ) : 0 < cauchy_cdf Real.arctan Real.pi y mu sigma := by
  unfold cauchy_cdf
  have h1 := Real.neg_pi_div_two_lt_arctan ((y - mu) / sigma)
  have hpi := Real.pi_pos
  have h2 : -(1 / 2) < Real.arctan ((y - mu) / sigma) / Real.pi := by
    rw [lt_div_iff₀ hpi]
    linarith
  linarith

/-- C6: over the real numbers, for vectors `y`, `mu`, `sigma` of one size that pass the
three checks (no `y` is NaN, every `mu` is finite, every `sigma` is positive and
finite), whatever the order of the work-items: if the size is not 0, `cauchy_lcdf`
returns the sum over `n` of `log(1/2 + atan((y_n - mu_n) / sigma_n) / pi)`; that sum is
the log of the product over `n` of the Cauchy cumulative distribution function at `y_n`
with location `mu_n` and scale `sigma_n`; and if the size is 0 it returns 0. -/
theorem cauchy_lcdf_value (isnan isfinite : ℝ → Bool) (fmt : ℝ → String) (uninit : ℝ)
    (sched : List (Nat × Nat)) (y mu sigma : List ℝ)
    (hmu : y.length = mu.length) (hsigma : y.length = sigma.length)
    (hy : ∀ n, n < y.length → isnan (y.getD n 0) = false)
    (hm : ∀ n, n < mu.length → isfinite (mu.getD n 0) = true)
    (hs : ∀ n, n < sigma.length → 0 < sigma.getD n 0 ∧ isfinite (sigma.getD n 0) = true) :
    (y.length ≠ 0 →
      cauchy_lcdf isnan isfinite Real.arctan Real.log Real.pi fmt uninit sched y mu sigma
        = .ok (∑ n ∈ Finset.range y.length,
            Real.log (1 / 2 +
              Real.arctan ((y.getD n 0 - mu.getD n 0) / sigma.getD n 0) / Real.pi))) ∧
    (∑ n ∈ Finset.range y.length,
        Real.log (1 / 2 +
          Real.arctan ((y.getD n 0 - mu.getD n 0) / sigma.getD n 0) / Real.pi)
      = Real.log (∏ n ∈ Finset.range y.length,
          cauchy_cdf Real.arctan Real.pi (y.getD n 0) (mu.getD n 0) (sigma.getD n 0))) ∧
    (y.length = 0 →
      cauchy_lcdf isnan isfinite Real.arctan Real.log Real.pi fmt uninit sched y mu sigma
        = .ok 0) := by
  refine ⟨?_, ?_, ?_⟩
  · intro hN
    rw [cauchy_lcdf_ok isnan isfinite Real.arctan Real.log Real.pi fmt uninit sched y mu
      sigma hmu hsigma hN hy hm hs, list_range_map_sum]
    congr 1
    apply Finset.sum_congr rfl
    intro n _
    rw [mul_one_div, add_comm]
  · rw [Real.log_prod _ _ (fun n _ => (cauchy_cdf_pos _ _ _).ne')]
    rfl
  · intro h0
    have hy0 : y = [] := List.length_eq_zero.mp h0
    have hm0 : mu = [] := List.length_eq_zero.mp (by rw [← hmu, h0])
    have hs0 : sigma = [] := List.length_eq_zero.mp (by rw [← hsigma, h0])
    rw [hy0, hm0, hs0]
    exact cauchy_lcdf_empty isnan isfinite Real.arctan Real.log Real.pi fmt uninit sched

/-- C6 at a concrete input: for `y = [0]`, `mu = [0]`, `sigma = [1]` the value is
`log(1/2)`. -/
theorem cauchy_lcdf_value_example :
    cauchy_lcdf (fun _ => false) (fun _ => true) Real.arctan Real.log Real.pi
      (fun _ => "") 0 [(0, 0)] [0] [0] [1] = .ok (Real.log (1 / 2)) := by
  have h := (cauchy_lcdf_value (fun _ => false) (fun _ => true) (fun _ => "") 0 [(0, 0)]
    [0] [0] [1] rfl rfl (fun _ _ => rfl) (fun _ _ => rfl)
    (fun n hn => by
      have hn0 : n = 0 := by simpa using hn
      subst hn0
      exact ⟨by norm_num, rfl⟩)).1 (by simp)
  rw [h]
  simp

/-! ### `log1p_exp` -/

/-- C5: over the real numbers, with `log1p x = log (1 + x)`, `exp` the exponential and
`fabs` the absolute value, `log1p_exp a = log (1 + exp a)` for every real `a`. -/
theorem log1p_exp_eq_log_one_add_exp (a : ℝ) :
    log1p_exp (fun x => Real.log (1 + x)) Real.exp (fun x => |x|) a
      = Real.log (1 + Real.exp a) := by
  unfold log1p_exp
  by_cases h : a > 0
  · simp only [h, if_true, abs_of_pos h]
    have h1 : (1 : ℝ) + Real.exp a = Real.exp a * (1 + Real.exp (-a)) := by
      rw [mul_add, mul_one, ← Real.exp_add, add_neg_cancel, Real.exp_zero, add_comm]
    rw [h1, Real.log_mul (Real.exp_pos a).ne' (by positivity), Real.log_exp]
  · have h' : a ≤ 0 := le_of_not_gt h
    simp only [h, if_false, abs_of_nonpos h', neg_neg, zero_add]

/-! ### `rep_matrix` -/

/-- The check `check_nonnegative` throws on a negative value. -/
theorem check_nonnegative_neg (function name : String) (y : Int) (h : y < 0) :
    check_nonnegative function name y = .error (.domain_error_value function name y) := by
  simp [check_nonnegative, h, throw, throwThe, MonadExceptOf.throw]

/-- The check `check_nonnegative` passes on a non-negative value. -/
theorem check_nonnegative_nonneg (function name : String) (y : Int) (h : 0 ≤ y) :
    check_nonnegative function name y = .ok () := by
  have h' : ¬ y < 0 := not_lt.mpr h
  simp [check_nonnegative, h', pure, Except.pure]

/-- C7: `rep_matrix(x, m, n)` throws when `m < 0` (whatever `n` is: the rows are checked
first), throws when `m >= 0` and `n < 0`, and otherwise returns a matrix with exactly `m`
rows and `n` columns all of whose entries are `x`. -/
theorem rep_matrix_spec (x : α) (m n : Int) :
    (m < 0 → rep_matrix x m n = .error (.domain_error_value "rep_matrix" "rows" m)) ∧
    (0 ≤ m → n < 0 →
      rep_matrix x m n = .error (.domain_error_value "rep_matrix" "cols" n)) ∧
    (0 ≤ m → 0 ≤ n → ∃ M, rep_matrix x m n = .ok M ∧ (M.rows : Int) = m ∧
      (M.cols : Int) = n ∧ ∀ i, i < M.rows → ∀ j, j < M.cols → M.coeff i j = x) ∧
    ((∃ e, rep_matrix x m n = .error e) ↔ (m < 0 ∨ n < 0)) := by
  have hneg : m < 0 →
      rep_matrix x m n = .error (.domain_error_value "rep_matrix" "rows" m) := by
    intro hm
    simp [rep_matrix, rep_matrix_impl, check_nonnegative_neg _ _ _ hm, bind, Except.bind]
  have hcol : 0 ≤ m → n < 0 →
      rep_matrix x m n = .error (.domain_error_value "rep_matrix" "cols" n) := by
    intro hm hn
    simp [rep_matrix, rep_matrix_impl, check_nonnegative_nonneg _ _ _ hm,
      check_nonnegative_neg _ _ _ hn, bind, Except.bind]
  have hok : 0 ≤ m → 0 ≤ n → rep_matrix x m n = .ok (Constant m.toNat n.toNat x) := by
    intro hm hn
    simp [rep_matrix, rep_matrix_impl, check_nonnegative_nonneg _ _ _ hm,
      check_nonnegative_nonneg _ _ _ hn, bind, Except.bind, pure, Except.pure]
  refine ⟨hneg, hcol, ?_, ?_⟩
  · intro hm hn
    exact ⟨_, hok hm hn, Int.toNat_of_nonneg hm, Int.toNat_of_nonneg hn,
      fun _ _ _ _ => rfl⟩
  · constructor
    · rintro ⟨e, he⟩
      by_contra hcon
      push_neg at hcon
      rw [hok hcon.1 hcon.2] at he
      cases he
    · intro h
      by_cases hm : m < 0
      · exact ⟨_, hneg hm⟩
      · rcases h with h | h
        · exact absurd h hm
        · exact ⟨_, hcol (not_lt.mp hm) h⟩

/-- C7 at concrete inputs: a 2-by-3 matrix of sevens; negative rows are reported before
negative columns. -/
theorem rep_matrix_examples :
    (∃ M, rep_matrix (7 : Int) 2 3 = .ok M ∧ M.rows = 2 ∧ M.cols = 3 ∧ M.coeff 1 2 = 7) ∧
    rep_matrix (7 : Int) (-1) (-2) = .error (.domain_error_value "rep_matrix" "rows" (-1)) ∧
    rep_matrix (7 : Int) 0 (-2) = .error (.domain_error_value "rep_matrix" "cols" (-2)) :=
  ⟨⟨_, rfl, rfl, rfl, rfl⟩, rfl, rfl⟩

/-- For a row-vector type and `n >= 0` the result is `x.replicate(n, 1)`. -/
theorem rep_matrix_vec_row (Vec : eigen_type) (x : eigen_matrix α) (n : Int)
    (hrow : is_eigen_row_vector Vec = true) (hn : 0 ≤ n) :
    rep_matrix_vec Vec x n = .ok (x.replicate n.toNat 1) := by
  simp [rep_matrix_vec, rep_matrix_vec_impl, hrow, check_nonnegative_nonneg _ _ _ hn,
    bind, Except.bind, pure, Except.pure]

/-- For a type that is not a row-vector type and `n >= 0` the result is
`x.replicate(1, n)`. -/
theorem rep_matrix_vec_col (Vec : eigen_type) (x : eigen_matrix α) (n : Int)
    (hrow : is_eigen_row_vector Vec = false) (hn : 0 ≤ n) :
    rep_matrix_vec Vec x n = .ok (x.replicate 1 n.toNat) := by
  simp [rep_matrix_vec, rep_matrix_vec_impl, hrow, check_nonnegative_nonneg _ _ _ hn,
    bind, Except.bind, pure, Except.pure]

/-- For `n < 0` the vector overload throws. -/
theorem rep_matrix_vec_neg (Vec : eigen_type) (x : eigen_matrix α) (n : Int) (hn : n < 0) :
    rep_matrix_vec Vec x n =
      .error (.domain_error_value "rep_matrix"
        (if is_eigen_row_vector Vec then "rows" else "cols") n) := by
  by_cases hrow : is_eigen_row_vector Vec = true
  · simp [rep_matrix_vec, rep_matrix_vec_impl, hrow, check_nonnegative_neg _ _ _ hn,
      bind, Except.bind]
  · simp [rep_matrix_vec, rep_matrix_vec_impl, hrow, check_nonnegative_neg _ _ _ hn,
      bind, Except.bind]

/-- C8 as amended: for an Eigen vector `x` of type `Vec` with `k = x.size()` entries and
an integer `n`: for `n < 0` `rep_matrix(x, n)` throws; for `n >= 0`, if `Vec` is a
row-vector type (`RowsAtCompileTime == 1`) the result is the `n`-by-`k` matrix with entry
`(i, j)` equal to `x[j]`, and if `Vec` is a column-vector type that is not also a
row-vector type the result is the `k`-by-`n` matrix with entry `(i, j)` equal to
`x[i]`. -/
theorem rep_matrix_vec_spec (Vec : eigen_type) (x : eigen_matrix α) (n : Int)
    (hT : has_type Vec x) :
    (n < 0 → ∃ e, rep_matrix_vec Vec x n = .error e) ∧
    (0 ≤ n → is_eigen_row_vector Vec = true →
      ∃ M, rep_matrix_vec Vec x n = .ok M ∧ (M.rows : Int) = n ∧ M.cols = x.size ∧
        ∀ i, i < M.rows → ∀ j, j < M.cols → M.coeff i j = x.entry j) ∧
    (0 ≤ n → is_eigen_col_vector Vec = true → is_eigen_row_vector Vec = false →
      ∃ M, rep_matrix_vec Vec x n = .ok M ∧ M.rows = x.size ∧ (M.cols : Int) = n ∧
        ∀ i, i < M.rows → ∀ j, j < M.cols → M.coeff i j = x.entry i) := by
  refine ⟨fun hn => ⟨_, rep_matrix_vec_neg Vec x n hn⟩, ?_, ?_⟩
  · intro hn hrow
    have hr : Vec.RowsAtCompileTime = 1 := by simpa [is_eigen_row_vector] using hrow
    have hx : x.rows = 1 := by
      have := hT.1 (by rw [hr]; decide)
      rw [hr] at this
      exact_mod_cast this
    refine ⟨_, rep_matrix_vec_row Vec x n hrow hn, ?_, ?_, ?_⟩
    · show ((x.rows * n.toNat : Nat) : Int) = n
      rw [hx, one_mul]
      exact Int.toNat_of_nonneg hn
    · show x.cols * 1 = x.rows * x.cols
      rw [hx, one_mul, mul_one]
    · intro i _ j hj
      have hj2 : j < x.cols := by
        have : j < x.cols * 1 := hj
        omega
      show x.coeff (i % x.rows) (j % x.cols) = x.coeff (j % x.rows) (j / x.rows)
      rw [hx, Nat.mod_one, Nat.mod_one, Nat.div_one, Nat.mod_eq_of_lt hj2]
  · intro hn hcol hrow
    have hc : Vec.ColsAtCompileTime = 1 := by simpa [is_eigen_col_vector] using hcol
    have hx : x.cols = 1 := by
      have := hT.2 (by rw [hc]; decide)
      rw [hc] at this
      exact_mod_cast this
    refine ⟨_, rep_matrix_vec_col Vec x n hrow hn, ?_, ?_, ?_⟩
    · show x.rows * 1 = x.rows * x.cols
      rw [hx]
    · show ((x.cols * n.toNat : Nat) : Int) = n
      rw [hx, one_mul]
      exact Int.toNat_of_nonneg hn
    · intro i hi j _
      have hi2 : i < x.rows := by
        have : i < x.rows * 1 := hi
        omega
      show x.coeff (i % x.rows) (j % x.cols) = x.coeff (i % x.rows) (i / x.rows)
      rw [hx, Nat.mod_one, Nat.div_eq_of_lt hi2]

/-- C8, the amended statement at concrete inputs: the row vector `[5, 6, 7]` replicated
twice is 2-by-3, the column vector `[5, 6, 7]` replicated twice is 3-by-2. -/
theorem rep_matrix_vec_examples :
    (∃ M, rep_matrix_vec RowVectorX (row_of_list [5, 6, 7] (0 : Int)) 2 = .ok M ∧
      (M.rows : Int) = 2 ∧ M.cols = 3 ∧
      ∀ i, i < M.rows → ∀ j, j < M.cols →
        M.coeff i j = (row_of_list [5, 6, 7] (0 : Int)).entry j) ∧
    (∃ M, rep_matrix_vec VectorX (col_of_list [5, 6, 7] (0 : Int)) 2 = .ok M ∧
      M.rows = 3 ∧ (M.cols : Int) = 2 ∧
      ∀ i, i < M.rows → ∀ j, j < M.cols →
        M.coeff i j = (col_of_list [5, 6, 7] (0 : Int)).entry i) :=
  ⟨(rep_matrix_vec_spec RowVectorX (row_of_list [5, 6, 7] (0 : Int)) 2
      (by decide)).2.1 (by decide) (by decide),
   (rep_matrix_vec_spec VectorX (col_of_list [5, 6, 7] (0 : Int)) 2
      (by decide)).2.2 (by decide) (by decide) (by decide)⟩

/-- C8 as stated fails for the vector type `Eigen::Matrix<T, 1, 1>`, which is a
column-vector type (`ColsAtCompileTime == 1`) and a row-vector type at once: the code
takes the row branch, so for `x = [7]` and `n = 2` the result is 2-by-1 and not the
`k`-by-`n` = 1-by-2 matrix of the column clause. -/
theorem rep_matrix_vec_one_by_one :
    is_eigen_vector Matrix11 = true ∧ is_eigen_col_vector Matrix11 = true ∧
    has_type Matrix11 (one_entry (7 : Int)) ∧ (one_entry (7 : Int)).size = 1 ∧
    ∃ M, rep_matrix_vec Matrix11 (one_entry (7 : Int)) 2 = .ok M ∧ M.rows = 2 ∧
      M.cols = 1 ∧
      ¬ (M.rows = (one_entry (7 : Int)).size ∧ (M.cols : Int) = 2) :=
  ⟨by decide, by decide, by decide, rfl, _, rfl, rfl, rfl, by decide⟩

/-! ### Code generation and argument binding of the check node -/

/-- On a node that is not yet generated the state `get_kernel_parts_lhs` leaves is the
one the argument leaves when visited after the node took its name and was inserted. -/
theorem get_kernel_parts_lhs_first_state (node : Nat) (arg_ : operation_cl)
    (type_str : String) (st : emit_state) (row_index_name col_index_name : String)
    (h : node ∉ st.generated) :
    (check_cl_.get_kernel_parts_lhs node arg_ type_str st row_index_name
      col_index_name).2 =
      (arg_.get_kernel_parts (emit_enter node st) row_index_name col_index_name false).2 := by
  simp [check_cl_.get_kernel_parts_lhs, h, emit_enter]

/-- On a node that is not yet generated the argument list `get_kernel_parts_lhs` returns
is the argument's own, followed by the two declarations of the node. -/
theorem get_kernel_parts_lhs_first_args (node : Nat) (arg_ : operation_cl)
    (type_str : String) (st : emit_state) (row_index_name col_index_name : String)
    (h : node ∉ st.generated) :
    (check_cl_.get_kernel_parts_lhs node arg_ type_str st row_index_name
      col_index_name).1.args =
      (arg_.get_kernel_parts (emit_enter node st) row_index_name col_index_name false).1.args
        ++ ("__global int* "
          ++ (arg_.get_kernel_parts (emit_enter node st) row_index_name col_index_name
              false).2.var_name_ node
          ++ "_buffer, __global " ++ type_str ++ "* "
          ++ (arg_.get_kernel_parts (emit_enter node st) row_index_name col_index_name
              false).2.var_name_ node
          ++ "_value, ") := by
  simp [check_cl_.get_kernel_parts_lhs, h, emit_enter]

/-- On a node that is already generated `get_kernel_parts_lhs` returns empty parts and
changes nothing. -/
theorem get_kernel_parts_lhs_again (node : Nat) (arg_ : operation_cl) (type_str : String)
    (st : emit_state) (row_index_name col_index_name : String)
    (h : node ∈ st.generated) :
    check_cl_.get_kernel_parts_lhs node arg_ type_str st row_index_name col_index_name =
      ({}, st) := by
  simp [check_cl_.get_kernel_parts_lhs, h]

/-- On a node whose arguments are not yet set `set_args` inserts the node, lets the
argument bind and then binds `buffer_` and `value_` at the next two indices. -/
theorem set_args_first (node : Nat) (arg_ : operation_cl) (bs : bind_state)
    (h : node ∉ bs.generated) :
    check_cl_.set_args node arg_ bs =
      { generated := (arg_.set_args (bind_enter node bs)).generated
        kernel := (arg_.set_args (bind_enter node bs)).kernel ++
          [((arg_.set_args (bind_enter node bs)).arg_num, cl_buffer.check_buffer_ node),
           ((arg_.set_args (bind_enter node bs)).arg_num + 1, cl_buffer.check_value_ node)]
        arg_num := (arg_.set_args (bind_enter node bs)).arg_num + 2 } := by
  simp [check_cl_.set_args, h, setArg, add_assoc, bind_enter]

/-- On a node whose arguments are already set `set_args` does nothing. -/
theorem set_args_again (node : Nat) (arg_ : operation_cl) (bs : bind_state)
    (h : node ∈ bs.generated) : check_cl_.set_args node arg_ bs = bs := by
  simp [check_cl_.set_args, h]

/-- The example argument only adds to the generated set. -/
theorem example_arg_generated_subset (node : Nat) (s : emit_state) (r c : String)
    (v : Bool) : s.generated ⊆ ((example_arg node).get_kernel_parts s r c v).2.generated := by
  by_cases h : node ∈ s.generated
  · simp [example_arg, h]
  · simp [example_arg, h]

/-- C11: for a check node, with `<var>` its variable name: on the first visit the
parameter list declared by `get_kernel_parts_lhs` is that of the checked argument's
sub-graph followed by `__global int* <var>_buffer` and `__global <type>* <var>_value`, and
`set_args` makes the bindings of the argument's sub-graph followed by `buffer_` and then
`value_` at the next two indices, advancing `arg_num` by the sub-graph's count plus 2;
when the node is already in the generated set `set_args` binds nothing and leaves
`arg_num` (and the set) unchanged. -/
theorem check_cl_parameters_and_arguments_order (node : Nat) (arg_ : operation_cl)
    (type_str : String) (st : emit_state) (row_index_name col_index_name : String)
    (bs : bind_state) :
    (node ∉ st.generated →
      (check_cl_.get_kernel_parts_lhs node arg_ type_str st row_index_name
        col_index_name).1.args =
        (arg_.get_kernel_parts (emit_enter node st) row_index_name col_index_name
          false).1.args
        ++ ("__global int* "
          ++ (check_cl_.get_kernel_parts_lhs node arg_ type_str st row_index_name
              col_index_name).2.var_name_ node
          ++ "_buffer, __global " ++ type_str ++ "* "
          ++ (check_cl_.get_kernel_parts_lhs node arg_ type_str st row_index_name
              col_index_name).2.var_name_ node
          ++ "_value, ")) ∧
    (node ∉ bs.generated →
      (check_cl_.set_args node arg_ bs).kernel =
        (arg_.set_args (bind_enter node bs)).kernel ++
          [((arg_.set_args (bind_enter node bs)).arg_num, cl_buffer.check_buffer_ node),
           ((arg_.set_args (bind_enter node bs)).arg_num + 1,
              cl_buffer.check_value_ node)] ∧
      (check_cl_.set_args node arg_ bs).arg_num =
        bs.arg_num + ((arg_.set_args (bind_enter node bs)).arg_num - bs.arg_num) + 2) ∧
    (node ∈ bs.generated → check_cl_.set_args node arg_ bs = bs) := by
  refine ⟨fun h => ?_, fun h => ?_, fun h => set_args_again node arg_ bs h⟩
  · rw [get_kernel_parts_lhs_first_args node arg_ type_str st _ _ h,
      get_kernel_parts_lhs_first_state node arg_ type_str st _ _ h]
  · rw [set_args_first node arg_ bs h]
    refine ⟨rfl, ?_⟩
    show (arg_.set_args (bind_enter node bs)).arg_num + 2 = _
    ring

/-- C11 at a concrete node: the check node at address 10 with the example argument at
address 20 declares the argument's parameter, then `var1_buffer`, then `var1_value`, and
binds the argument's buffer at 0, `buffer_` at 1 and `value_` at 2, leaving `arg_num`
at 3; a second `set_args` changes nothing. -/
theorem check_cl_parameters_and_arguments_example :
    (check_cl_.get_kernel_parts_lhs 10 (example_arg 20) "double" emit_init "i" "j").1.args
      = "__global double* var2, __global int* var1_buffer, __global double* var1_value, " ∧
    (check_cl_.set_args 10 (example_arg 20) bind_init).kernel =
      [(0, cl_buffer.other 20 0), (1, cl_buffer.check_buffer_ 10),
       (2, cl_buffer.check_value_ 10)] ∧
    (check_cl_.set_args 10 (example_arg 20) bind_init).arg_num = 3 ∧
    check_cl_.set_args 10 (example_arg 20)
        (check_cl_.set_args 10 (example_arg 20) bind_init) =
      check_cl_.set_args 10 (example_arg 20) bind_init :=
  ⟨by decide, by decide, by decide,
   (check_cl_parameters_and_arguments_order 10 (example_arg 20) "double" emit_init "i" "j"
      (check_cl_.set_args 10 (example_arg 20) bind_init)).2.2 (by decide)⟩

/-- C12: for a check node whose argument only adds to the generated set, and every
generated set: after a call of `get_kernel_parts_lhs` the node is in the generated set,
and a second call on the same node with that generated set returns empty kernel parts
(no argument, body or reduction text), leaves the name generator as it is (no new
variable name), leaves the variable name of the node unchanged and leaves the generated
set unchanged. -/
theorem get_kernel_parts_lhs_twice (node : Nat) (arg_ : operation_cl) (type_str : String)
    (st : emit_state) (row_index_name col_index_name : String)
    (hmono : ∀ (s : emit_state) (r c : String) (v : Bool),
      s.generated ⊆ (arg_.get_kernel_parts s r c v).2.generated) :
    node ∈ (check_cl_.get_kernel_parts_lhs node arg_ type_str st row_index_name
      col_index_name).2.generated ∧
    (check_cl_.get_kernel_parts_lhs node arg_ type_str
      (check_cl_.get_kernel_parts_lhs node arg_ type_str st row_index_name
        col_index_name).2 row_index_name col_index_name).1
      = { args := "", body := "", reduction := "", initialization := "" } ∧
    (check_cl_.get_kernel_parts_lhs node arg_ type_str
      (check_cl_.get_kernel_parts_lhs node arg_ type_str st row_index_name
        col_index_name).2 row_index_name col_index_name).2.name_gen
      = (check_cl_.get_kernel_parts_lhs node arg_ type_str st row_index_name
        col_index_name).2.name_gen ∧
    (check_cl_.get_kernel_parts_lhs node arg_ type_str
      (check_cl_.get_kernel_parts_lhs node arg_ type_str st row_index_name
        col_index_name).2 row_index_name col_index_name).2.var_name_ node
      = (check_cl_.get_kernel_parts_lhs node arg_ type_str st row_index_name
        col_index_name).2.var_name_ node ∧
    (check_cl_.get_kernel_parts_lhs node arg_ type_str
      (check_cl_.get_kernel_parts_lhs node arg_ type_str st row_index_name
        col_index_name).2 row_index_name col_index_name).2.generated
      = (check_cl_.get_kernel_parts_lhs node arg_ type_str st row_index_name
        col_index_name).2.generated := by
  have hin : node ∈ (check_cl_.get_kernel_parts_lhs node arg_ type_str st row_index_name
      col_index_name).2.generated := by
    by_cases h : node ∈ st.generated
    · rw [get_kernel_parts_lhs_again node arg_ type_str st _ _ h]
      exact h
    · rw [get_kernel_parts_lhs_first_state node arg_ type_str st _ _ h]
      exact hmono _ _ _ _ (Finset.mem_insert_self node st.generated)
  rw [get_kernel_parts_lhs_again node arg_ type_str _ _ _ hin]
  exact ⟨hin, rfl, rfl, rfl, rfl⟩

/-- C12 at a concrete node: the check node at address 10 with the example argument at
address 20, from the empty generated set: the first call emits text and leaves the set
`{10, 20}` and the counter at 2; the second call emits nothing and leaves both. -/
theorem get_kernel_parts_lhs_twice_example :
    (check_cl_.get_kernel_parts_lhs 10 (example_arg 20) "double" emit_init "i"
      "j").1.reduction
      = "if(!var1 && atomic_xchg(var1_buffer, 1) == 1)\x7b\n"
        ++ "var1_buffer[1] = i;\nvar1_buffer[2] = j;\nvar1_value[0] = var2;\n\x7d" ∧
    (check_cl_.get_kernel_parts_lhs 10 (example_arg 20) "double" emit_init "i"
      "j").2.generated
      = {10, 20} ∧
    (check_cl_.get_kernel_parts_lhs 10 (example_arg 20) "double" emit_init "i"
      "j").2.name_gen
      = { i_ := 2 } ∧
    (check_cl_.get_kernel_parts_lhs 10 (example_arg 20) "double"
      (check_cl_.get_kernel_parts_lhs 10 (example_arg 20) "double" emit_init "i" "j").2
      "i" "j").1 = { args := "", body := "", reduction := "", initialization := "" } ∧
    (check_cl_.get_kernel_parts_lhs 10 (example_arg 20) "double"
      (check_cl_.get_kernel_parts_lhs 10 (example_arg 20) "double" emit_init "i" "j").2
      "i" "j").2.generated = {10, 20} ∧
    (check_cl_.get_kernel_parts_lhs 10 (example_arg 20) "double"
      (check_cl_.get_kernel_parts_lhs 10 (example_arg 20) "double" emit_init "i" "j").2
      "i" "j").2.name_gen = { i_ := 2 } :=
  ⟨by decide, by decide, by decide,
   (get_kernel_parts_lhs_twice 10 (example_arg 20) "double" emit_init "i" "j"
      (example_arg_generated_subset 20)).2.1,
   by decide, by decide⟩

end stan.math
